import Mathlib

/-!
# FamilyHub client scripts

A shallow embedding of the functions of the FamilyHub scripts that compute something:

* `TimesheetUtils` and `DashboardUtils` of
  `timesheet_app/static/timesheet_app/js/timesheet.js` (the FamilyHub copy and the
  standalone copy are identical on `TimesheetUtils`): duration arithmetic, duration
  formatting, the interval-overlap check and the recent-activity list;
* `getCSRFToken`, `familyhubFetch` and `loadUserPreferences` of `static/js/familyhub.js`;
* the local-storage helpers and the form persistence of the standalone `main.js`.

Conventions of the embedding

* A JavaScript Number is a `JSNum`: `NaN`, the two infinities, or a finite value, which
  is a rational number. The operations of `Binary64` round their exact result to the
  nearest binary64 value, ties to even, as the operations of JavaScript do; the sign of
  zero is not modelled. `formatHours`, `formatTime` and `Binary64.calculateTotalHours`
  compute with them. `calculateTotalHours` is the same method with the unrounded
  operations of `JSNum`: its guards, its comparisons and its clamp are those of the code,
  and `Binary64.calculateTotalHours` differs from it by the rounding of the two quotients
  and of the difference.
* The time value of a `Date` is an `Option ℤ`: `none` is the `NaN` of an
  Invalid Date, `some t` is `t` milliseconds since the epoch.
* Parsing a date string is the platform's business (`new Date(string)`), so every
  function that builds a `Date` takes the parser as its first argument
  `dateParse`. `refDateParse` is one concrete instance. `JSON.parse` and
  `JSON.stringify` are arguments in the same way.
* An argument that may be `undefined` is an `Option`; `none` is `undefined`.
* A function that may throw returns an `Except JSError`; the state it reads or changes
  (the cookie text, `localStorage`, the activity elements of the page) is an argument.
-/

namespace FamilyHub

/-! ## JavaScript numbers -/

/-- A JavaScript Number: `NaN`, `-Infinity`, a finite value or `+Infinity`. -/
inductive JSNum where
  | nan
  | negInf
  | fin (q : ℚ)
  | posInf
  deriving DecidableEq

namespace JSNum

/-- The relation `x < y` of JavaScript: false as soon as one side is `NaN`. -/
def lt : JSNum → JSNum → Bool
  | nan, _ => false
  | _, nan => false
  | negInf, negInf => false
  | negInf, _ => true
  | fin _, negInf => false
  | fin p, fin q => decide (p < q)
  | fin _, posInf => true
  | posInf, _ => false

/-- The relation `x <= y` of JavaScript: false as soon as one side is `NaN`. -/
def le : JSNum → JSNum → Bool
  | nan, _ => false
  | _, nan => false
  | negInf, _ => true
  | fin _, negInf => false
  | fin p, fin q => decide (p ≤ q)
  | fin _, posInf => true
  | posInf, posInf => true
  | posInf, _ => false

/-- The difference `x - y` without rounding: the exact difference of two finite values. -/
def sub : JSNum → JSNum → JSNum
  | nan, _ => nan
  | _, nan => nan
  | negInf, negInf => nan
  | negInf, _ => negInf
  | fin _, negInf => posInf
  | fin p, fin q => fin (p - q)
  | fin _, posInf => negInf
  | posInf, posInf => nan
  | posInf, _ => posInf

/-- The quotient `x / c` without rounding, for a positive numeric literal `c`
(the code divides by `1000 * 60 * 60` and by `60` only). -/
def divLit : JSNum → ℚ → JSNum
  | nan, _ => nan
  | negInf, _ => negInf
  | fin p, c => fin (p / c)
  | posInf, _ => posInf

/-- The function `Math.max(x, y)`: `NaN` if an argument is `NaN`, else the larger one. -/
def mathMax : JSNum → JSNum → JSNum
  | nan, _ => nan
  | _, nan => nan
  | posInf, _ => posInf
  | _, posInf => posInf
  | negInf, y => y
  | x, negInf => x
  | fin p, fin q => fin (max p q)

end JSNum

/-! ## Binary64 arithmetic

A finite Number is a binary64 value: `m * 2^e` for integers `|m| < 2^53` and
`-1074 <= e <= 971`. An arithmetic operation returns the exact result rounded to the nearest
such value, ties to the even `m`, and an infinity beyond the largest one. -/

namespace Binary64

/-- The integer nearest to `y`, the even one when two are equally near. -/
def roundHalfEven (y : ℚ) : ℤ :=
  if y - (⌊y⌋ : ℚ) < 1 / 2 then ⌊y⌋
  else if 1 / 2 < y - (⌊y⌋ : ℚ) then ⌊y⌋ + 1
  else if ⌊y⌋ % 2 = 0 then ⌊y⌋
  else ⌊y⌋ + 1

/-- The exponent of the binade of `x`: `floor(log2 |x|)`, and `-1022` in the subnormal range
and at zero. -/
def exponent (x : ℚ) : ℤ :=
  if x = 0 then -1022 else max (Int.log 2 |x|) (-1022)

/-- The distance between neighbouring binary64 values in the binade of `x`. -/
def ulp (x : ℚ) : ℚ :=
  (2 : ℚ) ^ (exponent x - 52)

/-- The multiple of `ulp x` nearest to `x`, ties to the even multiple. -/
def nearest (x : ℚ) : ℚ :=
  (roundHalfEven (x / ulp x) : ℚ) * ulp x

/-- The largest finite binary64 value, `(2^53 - 1) * 2^971`. -/
def maxValue : ℚ :=
  (2 ^ 53 - 1) * 2 ^ 971

/-- The binary64 value of the real number `x`: round to nearest, ties to even, an infinity
when the rounded value is beyond the largest finite one. -/
def round (x : ℚ) : JSNum :=
  if maxValue < |nearest x| then (if 0 < x then JSNum.posInf else JSNum.negInf)
  else JSNum.fin (nearest x)

/-- The difference `x - y` of JavaScript: the exact difference rounded to binary64. -/
def sub : JSNum → JSNum → JSNum
  | JSNum.nan, _ => JSNum.nan
  | _, JSNum.nan => JSNum.nan
  | JSNum.negInf, JSNum.negInf => JSNum.nan
  | JSNum.negInf, _ => JSNum.negInf
  | JSNum.fin _, JSNum.negInf => JSNum.posInf
  | JSNum.fin p, JSNum.fin q => round (p - q)
  | JSNum.fin _, JSNum.posInf => JSNum.negInf
  | JSNum.posInf, JSNum.posInf => JSNum.nan
  | JSNum.posInf, _ => JSNum.posInf

/-- The quotient `x / c` of JavaScript for a positive numeric literal `c` (the code divides
by `1000 * 60 * 60` and by `60` only): the exact quotient rounded to binary64. -/
def divLit : JSNum → ℚ → JSNum
  | JSNum.nan, _ => JSNum.nan
  | JSNum.negInf, _ => JSNum.negInf
  | JSNum.fin p, c => round (p / c)
  | JSNum.posInf, _ => JSNum.posInf

/-- The product `x * c` of JavaScript for a positive numeric literal `c` (the code
multiplies by `60` only): the exact product rounded to binary64. -/
def mulLit : JSNum → ℚ → JSNum
  | JSNum.nan, _ => JSNum.nan
  | JSNum.negInf, _ => JSNum.negInf
  | JSNum.fin p, c => round (p * c)
  | JSNum.posInf, _ => JSNum.posInf

end Binary64

/-! ## Dates -/

/-- The constructor `new Date(text)`: the time value the platform parser gives the text. -/
def newDate (dateParse : String → Option ℤ) (text : String) : Option ℤ :=
  dateParse text

/-- The comparison `d1 < d2` of two dates: both are converted to their time values. -/
def dateLt : Option ℤ → Option ℤ → Bool
  | some a, some b => decide (a < b)
  | _, _ => false

/-- The comparison `d1 <= d2` of two dates: both are converted to their time values. -/
def dateLe : Option ℤ → Option ℤ → Bool
  | some a, some b => decide (a ≤ b)
  | _, _ => false

/-- The difference `d1 - d2` of two dates without rounding, a Number of milliseconds. -/
def dateSub : Option ℤ → Option ℤ → JSNum
  | some a, some b => JSNum.fin ((a - b : ℤ) : ℚ)
  | _, _ => JSNum.nan

/-- The difference `d1 - d2` of two dates, a Number of milliseconds: the difference of the
two time values rounded to binary64 (it is exact up to `2^53`). -/
def Binary64.dateSub : Option ℤ → Option ℤ → JSNum
  | some a, some b => Binary64.round ((a - b : ℤ) : ℚ)
  | _, _ => JSNum.nan

/-- The truth value of a string argument: `undefined` and the empty string are falsy. -/
def truthy : Option String → Bool
  | none => false
  | some s => decide (s ≠ "")

/-- The text a template literal inserts for a string argument. -/
def templateText : Option String → String
  | none => "undefined"
  | some s => s

/-! ### A reference date parser

The strings an `<input type="time">` yields are `HH:MM` and `HH:MM:SS`: the times of
day. After the date `2000-01-01` the parsers of the browsers accept more than these: no
time at all (midnight), an hour of one digit, `24:00`. `refDateParse` reads the date
followed by one of these forms, in a zone whose local time is UTC, and rejects every
other text. -/

/-- The value of a decimal digit. -/
def digitValue (c : Char) : Option ℕ :=
  if c.isDigit then some (c.toNat - 48) else none

/-- The number written by two decimal digits. -/
def twoDigits (c d : Char) : Option ℕ :=
  match digitValue c, digitValue d with
  | some x, some y => some (10 * x + y)
  | _, _ => none

/-- The milliseconds since midnight of a clock text `HH:MM` or `HH:MM:SS`. -/
def clockMillis : List Char → Option ℕ
  | [h1, h2, ':', m1, m2] =>
    match twoDigits h1 h2, twoDigits m1 m2 with
    | some h, some m => if h < 24 ∧ m < 60 then some ((h * 60 + m) * 60000) else none
    | _, _ => none
  | [h1, h2, ':', m1, m2, ':', s1, s2] =>
    match twoDigits h1 h2, twoDigits m1 m2, twoDigits s1 s2 with
    | some h, some m, some s =>
      if h < 24 ∧ m < 60 ∧ s < 60 then some ((h * 60 + m) * 60000 + s * 1000) else none
    | _, _, _ => none
  | _ => none

/-- The time value of midnight, 1 January 2000, UTC. -/
def epoch2000 : ℤ := 946684800000

/-- Whether a text is a time of day: `HH:MM` or `HH:MM:SS`, the hour below 24, the minute
and the second below 60. -/
def IsTimeOfDay (text : String) : Prop :=
  (clockMillis text.data).isSome = true

instance (text : String) : Decidable (IsTimeOfDay text) := by
  unfold IsTimeOfDay
  infer_instance

/-- A text without the blanks at its two ends. -/
def dropBlanks (cs : List Char) : List Char :=
  ((cs.dropWhile fun c => c == ' ').reverse.dropWhile fun c => c == ' ').reverse

/-- The milliseconds since midnight of the text that follows the date: nothing but blanks
is midnight, `24:00` is the end of the day, and the hour may have one digit. -/
def clockMillisLenient (cs : List Char) : Option ℕ :=
  match dropBlanks cs with
  | [] => some 0
  | ['2', '4', ':', '0', '0'] => some 86400000
  | [h, ':', m1, m2] => clockMillis ['0', h, ':', m1, m2]
  | [h, ':', m1, m2, ':', s1, s2] => clockMillis ['0', h, ':', m1, m2, ':', s1, s2]
  | clock => clockMillis clock

/-- A reference instance of the platform parser, for the texts `2000-01-01 ` followed by a
time of day, by an hour of one digit and its minutes, by `24:00` or by nothing. -/
def refDateParse (text : String) : Option ℤ :=
  match text.data with
  | '2' :: '0' :: '0' :: '0' :: '-' :: '0' :: '1' :: '-' :: '0' :: '1' :: ' ' :: clock =>
    (clockMillisLenient clock).map fun ms => epoch2000 + (ms : ℤ)
  | _ => none

/-! ## TimesheetUtils -/

/-- The method `TimesheetUtils.calculateTotalHours(startTime, endTime, breakMinutes = 0)`
with the unrounded operations: the guards, the comparison of the dates and the clamp are
those of the code, the two quotients and the difference are exact. -/
def calculateTotalHours (dateParse : String → Option ℤ)
    (startTime endTime : Option String) (breakMinutes : Option JSNum) : JSNum :=
  let breakMinutes := breakMinutes.getD (JSNum.fin 0)
  if !truthy startTime || !truthy endTime then JSNum.fin 0
  else
    let start := newDate dateParse ("2000-01-01 " ++ templateText startTime)
    let end_ := newDate dateParse ("2000-01-01 " ++ templateText endTime)
    if dateLe end_ start then JSNum.fin 0
    else
      let diffMs := dateSub end_ start
      let diffHours := JSNum.divLit diffMs (1000 * 60 * 60)
      let breakHours := JSNum.divLit breakMinutes 60
      JSNum.mathMax (JSNum.fin 0) (JSNum.sub diffHours breakHours)

/-- The method `TimesheetUtils.calculateTotalHours(startTime, endTime, breakMinutes = 0)`
as JavaScript evaluates it: every operation rounds its result to binary64. -/
def Binary64.calculateTotalHours (dateParse : String → Option ℤ)
    (startTime endTime : Option String) (breakMinutes : Option JSNum) : JSNum :=
  let breakMinutes := breakMinutes.getD (JSNum.fin 0)
  if !truthy startTime || !truthy endTime then JSNum.fin 0
  else
    let start := newDate dateParse ("2000-01-01 " ++ templateText startTime)
    let end_ := newDate dateParse ("2000-01-01 " ++ templateText endTime)
    if dateLe end_ start then JSNum.fin 0
    else
      let diffMs := Binary64.dateSub end_ start
      let diffHours := Binary64.divLit diffMs (1000 * 60 * 60)
      let breakHours := Binary64.divLit breakMinutes 60
      JSNum.mathMax (JSNum.fin 0) (Binary64.sub diffHours breakHours)

/-- The value of `Math.floor` or `Math.round`: an integral Number, `NaN` or an infinity. -/
inductive JSIntegral where
  | nan
  | negInf
  | int (n : ℤ)
  | posInf
  deriving DecidableEq

/-- An integral Number as a Number. -/
def JSIntegral.toNum : JSIntegral → JSNum
  | JSIntegral.nan => JSNum.nan
  | JSIntegral.negInf => JSNum.negInf
  | JSIntegral.int n => JSNum.fin (n : ℚ)
  | JSIntegral.posInf => JSNum.posInf

/-- The function `Math.floor(x)`: the greatest integer not above `x`. -/
def mathFloor : JSNum → JSIntegral
  | JSNum.nan => JSIntegral.nan
  | JSNum.negInf => JSIntegral.negInf
  | JSNum.fin q => JSIntegral.int ⌊q⌋
  | JSNum.posInf => JSIntegral.posInf

/-- The function `Math.round(x)`: the integer closest to `x`, the one towards
`+Infinity` when two are equally close, which is `floor(x + 1/2)`. -/
def mathRound : JSNum → JSIntegral
  | JSNum.nan => JSIntegral.nan
  | JSNum.negInf => JSIntegral.negInf
  | JSNum.fin q => JSIntegral.int ⌊q + 1 / 2⌋
  | JSNum.posInf => JSIntegral.posInf

/-- The digits of a decimal numeral without its trailing zeros. -/
def significantDigits (digits : List Char) : List Char :=
  (digits.reverse.dropWhile fun c => c == '0').reverse

/-- The exponent notation of a positive integer `m`, as `Number::toString` writes it: the
first significant digit, then `.` and the other significant digits when there are any, then
`e+` and the decimal exponent. -/
def exponentForm (m : ℕ) : String :=
  let digits := Nat.toDigits 10 m
  let exponent := toString (digits.length - 1)
  match significantDigits digits with
  | [] => String.mk digits
  | [d] => String.mk [d] ++ "e+" ++ exponent
  | d :: rest => String.mk (d :: '.' :: rest) ++ "e+" ++ exponent

/-- The binary64 value nearest to the natural number `n >= 2^53`, ties to even, as its
significand `m` and its binary exponent `e`: the value is `m * 2^e` with
`2^52 <= m < 2^53`. -/
def Binary64.nearestNat (n : ℕ) : ℕ × ℕ :=
  let e := (Nat.toDigits 2 n).length - 53
  let m := n / 2 ^ e
  let r := n % 2 ^ e
  let m := if 2 ^ e < 2 * r ∨ (2 * r = 2 ^ e ∧ m % 2 = 1) then m + 1 else m
  if m = 2 ^ 53 then (2 ^ 52, e + 1) else (m, e)

/-- Whether the natural number `c` reads back as the binary64 value `m * 2^e` (`e >= 1`): it
lies between the midpoints to the two neighbouring values, the midpoints included when `m`
is even. The value below is half as far when `m = 2^52`. -/
def Binary64.readsBack (m e c : ℕ) : Bool :=
  let below := if m = 2 ^ 52 then 2 ^ e else 2 * 2 ^ e
  let above := 2 * 2 ^ e
  if m % 2 = 0 then
    decide (4 * (m * 2 ^ e) ≤ 4 * c + below) && decide (4 * c ≤ 4 * (m * 2 ^ e) + above)
  else
    decide (4 * (m * 2 ^ e) < 4 * c + below) && decide (4 * c < 4 * (m * 2 ^ e) + above)

/-- The multiple of `10^j` that reads back as `m * 2^e` and is closest to it, the even
multiple when two are equally close; `none` when no multiple reads back. -/
def Binary64.shortestAt (m e j : ℕ) : Option ℕ :=
  let v := m * 2 ^ e
  let down := v / 10 ^ j * 10 ^ j
  let up := down + 10 ^ j
  match Binary64.readsBack m e down, Binary64.readsBack m e up with
  | true, true =>
    if v - down < up - v then some down
    else if up - v < v - down then some up
    else if v / 10 ^ j % 2 = 0 then some down
    else some up
  | true, false => some down
  | false, true => some up
  | false, false => none

/-- The search of `Binary64.shortest`: the power of ten `j` grows as long as a multiple of
`10^j` reads back. -/
def Binary64.shortestFrom (m e : ℕ) : ℕ → ℕ → ℕ → ℕ
  | 0, _, best => best
  | fuel + 1, j, best =>
    match Binary64.shortestAt m e j with
    | some c => Binary64.shortestFrom m e fuel (j + 1) c
    | none => best

/-- The decimal with the fewest significant digits that reads back as the integral
binary64 value `m * 2^e`, the closest to the value among those: the digits that
`Number::toString` writes. -/
def Binary64.shortest (m e : ℕ) : ℕ :=
  Binary64.shortestFrom m e (Nat.toDigits 10 (m * 2 ^ e)).length 1 (m * 2 ^ e)

/-- The text a template literal inserts for an integral Number (`Number::toString`). Below
`2^53` in magnitude every integer is a binary64 value and its decimal digits are written,
with a leading `-` when negative. From `2^53` on the Number is the binary64 value nearest
to the integer, an infinity from `2^1024 - 2^970` on, and the digits are the shortest that
read back as that value: below `10^21` they are written in full, from `10^21` on in the
exponent notation. -/
def numberToString : JSIntegral → String
  | JSIntegral.nan => "NaN"
  | JSIntegral.negInf => "-Infinity"
  | JSIntegral.int n =>
    if n.natAbs < 2 ^ 53 then toString n
    else
      let v := Binary64.nearestNat n.natAbs
      if 971 < v.2 then (if n < 0 then "-Infinity" else "Infinity")
      else
        let c := Binary64.shortest v.1 v.2
        (if n < 0 then "-" else "") ++ (if c < 10 ^ 21 then toString c else exponentForm c)
  | JSIntegral.posInf => "Infinity"

/-- The method `TimesheetUtils.formatHours(hours)`. -/
def formatHours (hours : JSNum) : String :=
  let h := mathFloor hours
  let m := mathRound (Binary64.mulLit (Binary64.sub hours h.toNum) 60)
  numberToString h ++ "h " ++ numberToString m ++ "m"

/-- The method `TimesheetUtils.timesOverlap(start1, end1, start2, end2)`. -/
def timesOverlap (dateParse : String → Option ℤ) (start1 end1 start2 end2 : String) : Bool :=
  let s1 := newDate dateParse ("2000-01-01 " ++ start1)
  let e1 := newDate dateParse ("2000-01-01 " ++ end1)
  let s2 := newDate dateParse ("2000-01-01 " ++ start2)
  let e2 := newDate dateParse ("2000-01-01 " ++ end2)
  dateLt s1 e2 && dateLt s2 e1

/-- A time entry: an object with the properties `start` and `end`. -/
structure Entry where
  start : String
  end_ : String
  deriving DecidableEq

/-- The object `checkTimeOverlap` returns: `{ overlap: true, entries: [entry1, entry2] }`
or `{ overlap: false }`. -/
structure OverlapResult where
  overlap : Bool
  entries : Option (Entry × Entry)
  deriving DecidableEq

/-- The inner loop of `checkTimeOverlap`, `for (j = ...; j < entries.length; j++)`, entered
at `j`: the object returned from inside the loop, or `none` when the loop runs to its end. -/
def checkTimeOverlap.inner (dateParse : String → Option ℤ) (entries : List Entry)
    (i : ℕ) (hi : i < entries.length) (j : ℕ) : Option OverlapResult :=
  if hj : j < entries.length then
    let entry1 := entries[i]
    let entry2 := entries[j]
    if timesOverlap dateParse entry1.start entry1.end_ entry2.start entry2.end_ then
      some { overlap := true, entries := some (entry1, entry2) }
    else checkTimeOverlap.inner dateParse entries i hi (j + 1)
  else none
termination_by entries.length - j

/-- The outer loop of `checkTimeOverlap`, `for (i = ...; i < entries.length; i++)`, entered
at `i`, followed by the final `return { overlap: false }`. -/
def checkTimeOverlap.outer (dateParse : String → Option ℤ) (entries : List Entry)
    (i : ℕ) : OverlapResult :=
  if hi : i < entries.length then
    match checkTimeOverlap.inner dateParse entries i hi (i + 1) with
    | some result => result
    | none => checkTimeOverlap.outer dateParse entries (i + 1)
  else { overlap := false, entries := none }
termination_by entries.length - i

/-- The method `TimesheetUtils.checkTimeOverlap(entries)`. -/
def checkTimeOverlap (dateParse : String → Option ℤ) (entries : List Entry) : OverlapResult :=
  checkTimeOverlap.outer dateParse entries 0

/-- The time value of a time text: that of `new Date("2000-01-01 " + text)`, the date every
function of `TimesheetUtils` builds. The text is a parseable time when this is `some t`. -/
def timeValue (dateParse : String → Option ℤ) (text : String) : Option ℤ :=
  newDate dateParse ("2000-01-01 " ++ text)

/-- A start or end argument that is absent, empty, or a parseable time. -/
def ParseableOrAbsent (dateParse : String → Option ℤ) : Option String → Prop
  | none => True
  | some text => text = "" ∨ (timeValue dateParse text).isSome = true

instance (dateParse : String → Option ℤ) (t : Option String) :
    Decidable (ParseableOrAbsent dateParse t) := by
  cases t <;> unfold ParseableOrAbsent <;> infer_instance

/-- The test `checkTimeOverlap` applies to a pair of entries. -/
def pairOverlap (dateParse : String → Option ℤ) (entry1 entry2 : Entry) : Bool :=
  timesOverlap dateParse entry1.start entry1.end_ entry2.start entry2.end_

/-! ## Exceptions, and the overlap check with its index reads

An array read `entries[i]` outside the bounds gives `undefined`, and reading the property
`start` of `undefined` throws a `TypeError`. `checkTimeOverlap.run` is `checkTimeOverlap`
with every array read done that way (`entries[i]?`), and it records the indices it reads. -/

/-- An exception a JavaScript operation throws. -/
inductive JSError where
  | typeError
  | syntaxError
  | securityError
  | quotaExceededError
  deriving DecidableEq

/-- The inner loop of `checkTimeOverlap` entered at `j`, with unchecked array reads: the
indices read (the latest first, after those in `reads`) and the outcome, which is an
exception, the object returned from inside the loop, or `none` at the end of the loop. -/
def checkTimeOverlap.innerRun (dateParse : String → Option ℤ) (entries : List Entry)
    (i j : ℕ) (reads : List ℕ) : List ℕ × Except JSError (Option OverlapResult) :=
  if j < entries.length then
    match entries[i]?, entries[j]? with
    | some entry1, some entry2 =>
      if timesOverlap dateParse entry1.start entry1.end_ entry2.start entry2.end_ then
        (j :: i :: reads, Except.ok (some { overlap := true, entries := some (entry1, entry2) }))
      else checkTimeOverlap.innerRun dateParse entries i (j + 1) (j :: i :: reads)
    | _, _ => (j :: i :: reads, Except.error JSError.typeError)
  else (reads, Except.ok none)
termination_by entries.length - j

/-- The outer loop of `checkTimeOverlap` entered at `i`, with unchecked array reads, followed
by the final `return { overlap: false }`. -/
def checkTimeOverlap.outerRun (dateParse : String → Option ℤ) (entries : List Entry)
    (i : ℕ) (reads : List ℕ) : List ℕ × Except JSError OverlapResult :=
  if i < entries.length then
    match checkTimeOverlap.innerRun dateParse entries i (i + 1) reads with
    | (reads', Except.ok (some result)) => (reads', Except.ok result)
    | (reads', Except.ok none) => checkTimeOverlap.outerRun dateParse entries (i + 1) reads'
    | (reads', Except.error e) => (reads', Except.error e)
  else (reads, Except.ok { overlap := false, entries := none })
termination_by entries.length - i

/-- The method `TimesheetUtils.checkTimeOverlap(entries)` with unchecked array reads: the
indices it reads and what it returns or throws. -/
def checkTimeOverlap.run (dateParse : String → Option ℤ) (entries : List Entry) :
    List ℕ × Except JSError OverlapResult :=
  checkTimeOverlap.outerRun dateParse entries 0 []

/-! ## `familyhub.js`: the CSRF token and the fetch wrapper

An object is the list of its property definitions in the order they are written, a later
definition of a name replacing an earlier one, as in an object literal; a spread
`...source` writes the definitions of `source` at its place. -/

/-- A value that is a string, `undefined` or `null`. -/
inductive JSValue where
  | undefined
  | null
  | str (s : String)
  deriving DecidableEq

/-- The characters `String.prototype.trim` strips: white space and line terminators. -/
def isTrimChar (c : Char) : Bool :=
  [0x09, 0x0A, 0x0B, 0x0C, 0x0D, 0x20, 0xA0, 0x1680, 0x2028, 0x2029, 0x202F, 0x205F, 0x3000,
    0xFEFF].contains c.toNat || (0x2000 ≤ c.toNat && c.toNat ≤ 0x200A)

/-- The characters of a text without the leading and trailing characters `trim` strips. -/
def trimChars (cs : List Char) : List Char :=
  ((cs.dropWhile isTrimChar).reverse.dropWhile isTrimChar).reverse

/-- The pieces of a text between the occurrences of a separator character; a text without
the separator is one piece, the empty text included. -/
def splitChars (sep : Char) : List Char → List (List Char)
  | [] => [[]]
  | c :: cs =>
    if c = sep then [] :: splitChars sep cs
    else
      match splitChars sep cs with
      | piece :: pieces => (c :: piece) :: pieces
      | [] => [[c]]

/-- The method `text.trim()`. -/
def strTrim (text : String) : String :=
  String.mk (trimChars text.data)

/-- The method `text.split(sep)` for a separator of one character. -/
def strSplit (sep : Char) (text : String) : List String :=
  (splitChars sep text.data).map String.mk

/-- The loop `for (let cookie of cookies)` of `getCSRFToken`: the value returned from inside
the loop, or `none` when the loop runs to its end. The destructuring
`[name, value] = cookie.trim().split('=')` takes the first two pieces, `value` being
`undefined` when there is one piece only. -/
def getCSRFToken.loop : List String → Option JSValue
  | [] => none
  | cookie :: cookies =>
    match strSplit '=' (strTrim cookie) with
    | [] => getCSRFToken.loop cookies
    | [name] => if name = "csrftoken" then some JSValue.undefined else getCSRFToken.loop cookies
    | name :: value :: _ =>
      if name = "csrftoken" then some (JSValue.str value) else getCSRFToken.loop cookies

/-- The function `getCSRFToken()`, of the text `document.cookie` and of the element
`meta[name="csrf-token"]`: `metaContent` is `none` when there is no such element, `some none`
when it has no `content` attribute, and else its `content`. -/
def getCSRFToken (cookie : String) (metaContent : Option (Option String)) : JSValue :=
  match getCSRFToken.loop (strSplit ';' cookie) with
  | some value => value
  | none =>
    match metaContent with
    | none => JSValue.str ""
    | some none => JSValue.null
    | some (some content) => JSValue.str content

/-- The value of a property of an options object: a plain value or an object of headers. -/
inductive OptionValue where
  | value (v : JSValue)
  | object (props : List (String × JSValue))
  deriving DecidableEq

/-- The value `object[key]` of an object given by its property definitions: that of the last
definition of `key`, and `none` (`undefined`) when there is none. -/
def getProp {α : Type} (key : String) : List (String × α) → Option α
  | [] => none
  | (k, v) :: rest =>
    match getProp key rest with
    | some w => some w
    | none => if k = key then some v else none

/-- The property definitions a spread `...value` writes: those of an object, one per
character for a string, none for `undefined` and `null`. -/
def spreadProps : Option OptionValue → List (String × JSValue)
  | none => []
  | some (OptionValue.object props) => props
  | some (OptionValue.value (JSValue.str s)) =>
    s.data.enum.map fun p => (toString p.1, JSValue.str (String.singleton p.2))
  | some (OptionValue.value _) => []

/-- The object `defaultOptions.headers` of `familyhubFetch`. -/
def familyhubFetch.defaultHeaders (cookie : String) (metaContent : Option (Option String)) :
    List (String × JSValue) :=
  [("Content-Type", JSValue.str "application/json"),
   ("X-CSRFToken", getCSRFToken cookie metaContent)]

/-- The object `defaultOptions` of `familyhubFetch`. -/
def familyhubFetch.defaultOptions (cookie : String) (metaContent : Option (Option String)) :
    List (String × OptionValue) :=
  [("headers", OptionValue.object (familyhubFetch.defaultHeaders cookie metaContent)),
   ("credentials", OptionValue.value (JSValue.str "same-origin"))]

/-- The function `familyhubFetch(url, options = {})`: the two arguments of the call
`fetch(url, mergedOptions)` it ends with. -/
def familyhubFetch (cookie : String) (metaContent : Option (Option String)) (url : String)
    (options : Option (List (String × OptionValue))) : String × List (String × OptionValue) :=
  let options := options.getD []
  let defaultOptions := familyhubFetch.defaultOptions cookie metaContent
  let mergedOptions :=
    defaultOptions ++ options ++
      [("headers", OptionValue.object
        (spreadProps (getProp "headers" defaultOptions) ++
          spreadProps (getProp "headers" options)))]
  (url, mergedOptions)

/-! ## Local storage: user preferences and form persistence

`JSON.parse` and `JSON.stringify` belong to the platform and are arguments, like the date
parser. The state of `localStorage` is its list of items, a later item of a key replacing
an earlier one, with two flags for the ways an access fails. -/

/-- A JSON value, as `JSON.parse` returns it. -/
inductive JsonValue where
  | null
  | bool (b : Bool)
  | num (x : ℚ)
  | str (s : String)
  | arr (items : List JsonValue)
  | obj (props : List (String × JsonValue))

/-- The state of `localStorage`. When `blocked`, every access throws a `SecurityError`
(storage disabled for the page); when `full`, `setItem` throws a `QuotaExceededError`. -/
structure Storage where
  blocked : Bool
  full : Bool
  items : List (String × String)

/-- The items of a storage without those of one key. -/
def Storage.without (items : List (String × String)) (key : String) : List (String × String) :=
  items.filter fun p => decide (p.1 ≠ key)

/-- The method `localStorage.getItem(key)`: the value stored, `none` for `null`. -/
def Storage.getItem (st : Storage) (key : String) : Except JSError (Option String) :=
  if st.blocked then Except.error JSError.securityError
  else Except.ok (getProp key st.items)

/-- The method `localStorage.setItem(key, value)`: the state after it. -/
def Storage.setItem (st : Storage) (key value : String) : Except JSError Storage :=
  if st.blocked then Except.error JSError.securityError
  else if st.full then Except.error JSError.quotaExceededError
  else Except.ok { st with items := Storage.without st.items key ++ [(key, value)] }

/-- The method `localStorage.removeItem(key)`: the state after it. -/
def Storage.removeItem (st : Storage) (key : String) : Except JSError Storage :=
  if st.blocked then Except.error JSError.securityError
  else Except.ok { st with items := Storage.without st.items key }

/-- The function `getDefaultPreferences()`. -/
def getDefaultPreferences : JsonValue :=
  JsonValue.obj
    [("theme", JsonValue.str "default"),
     ("sidebarCollapsed", JsonValue.bool false),
     ("autoSave", JsonValue.bool true),
     ("notifications", JsonValue.bool true)]

/-- The function `loadUserPreferences()`: a `try` around the read and the parse, whose
`catch` logs a warning and returns the defaults. -/
def loadUserPreferences (jsonParse : String → Except JSError JsonValue) (st : Storage) :
    Except JSError JsonValue :=
  Except.tryCatch
    (match st.getItem "familyhub_preferences" with
      | Except.error e => Except.error e
      | Except.ok saved =>
        if truthy saved then jsonParse (saved.getD "") else Except.ok getDefaultPreferences)
    (fun _ => Except.ok getDefaultPreferences)

/-- The function `saveToLocalStorage(key, value)` of `main.js`: the state of the storage
after it; the `catch` logs a warning and leaves the storage as it is. -/
def saveToLocalStorage {α : Type} (jsonStringify : α → Except JSError String)
    (key : String) (value : α) (st : Storage) : Except JSError Storage :=
  Except.tryCatch
    (match jsonStringify value with
      | Except.error e => Except.error e
      | Except.ok text => st.setItem ("timesheet_" ++ key) text)
    (fun _ => Except.ok st)

/-- The function `getFromLocalStorage(key)` of `main.js`; the `catch` logs a warning and
returns `null`. -/
def getFromLocalStorage (jsonParse : String → Except JSError JsonValue) (key : String)
    (st : Storage) : Except JSError JsonValue :=
  Except.tryCatch
    (match st.getItem ("timesheet_" ++ key) with
      | Except.error e => Except.error e
      | Except.ok value =>
        if truthy value then jsonParse (value.getD "") else Except.ok JsonValue.null)
    (fun _ => Except.ok JsonValue.null)

/-- The object `data` the `input` handler of `initializeFormPersistence` builds from the
entries of the form: `data[key] = value` for every entry but `csrfmiddlewaretoken`. -/
def formInputData (formData : List (String × String)) : List (String × String) :=
  formData.foldl
    (fun data entry => if entry.1 ≠ "csrfmiddlewaretoken" then data ++ [(entry.1, entry.2)]
      else data)
    []

/-- The `input` handler of `initializeFormPersistence` for the form whose `data-persist`
attribute is `formId`: the state of the storage after it. -/
def formInputHandler (jsonStringify : List (String × String) → Except JSError String)
    (formId : String) (formData : List (String × String)) (st : Storage) :
    Except JSError Storage :=
  saveToLocalStorage jsonStringify ("form_" ++ formId) (formInputData formData) st

/-- The callback the `submit` handler of `initializeFormPersistence` schedules: when the form
shows no `.error-highlight` element it removes the saved item. -/
def formSubmitCallback (hasErrorHighlight : Bool) (formId : String) (st : Storage) :
    Except JSError Storage :=
  if !hasErrorHighlight then st.removeItem ("timesheet_form_" ++ formId)
  else Except.ok st

/-- An instance of `JSON.parse` for examples: it reads the three literals `null`, `true`
and `false` and throws a `SyntaxError` on every other text. -/
def literalJsonParse (text : String) : Except JSError JsonValue :=
  if text = "null" then Except.ok JsonValue.null
  else if text = "true" then Except.ok (JsonValue.bool true)
  else if text = "false" then Except.ok (JsonValue.bool false)
  else Except.error JSError.syntaxError

/-! ## The dashboard's recent activity -/

/-- The argument of `addActivity`: an object with `job`, `timeRange` and `hours`. -/
structure Activity where
  job : String
  timeRange : String
  hours : JSNum

/-- An `.activity-item` element, by the three texts `addActivity` writes into it. -/
structure ActivityItem where
  job : String
  timeRange : String
  badge : String
  deriving DecidableEq

/-- The method `DashboardUtils.formatTime(hours)`. -/
def formatTime (hours : JSNum) : String :=
  let h := mathFloor hours
  let m := mathRound (Binary64.mulLit (Binary64.sub hours h.toNum) 60)
  numberToString h ++ "h " ++ numberToString m ++ "m"

/-- The method `DashboardUtils.addActivity(activity)`, of the `.activity-item` elements of
the activity container in document order: the elements after it. The container is
`document.querySelector('.card-body .activity-item').parentNode`, so without an activity
item the read of `parentNode` of `null` throws a `TypeError`. -/
def addActivity (items : List ActivityItem) (activity : Activity) :
    Except JSError (List ActivityItem) :=
  match items with
  | [] => Except.error JSError.typeError
  | _ :: _ =>
    let newActivity : ActivityItem :=
      { job := activity.job, timeRange := activity.timeRange,
        badge := formatTime activity.hours }
    let activities := newActivity :: items
    if activities.length > 5 then Except.ok activities.dropLast
    else Except.ok activities

/-! ## Properties of the binary64 rounding

The rounding is within half a unit in the last place, is monotone, keeps the multiples of
the unit that bound its argument, and leaves the binary64 values unchanged. -/

namespace Binary64

theorem roundHalfEven_cases (y : ℚ) :
    roundHalfEven y = ⌊y⌋ ∧ y - (⌊y⌋ : ℚ) ≤ 1 / 2 ∨
    roundHalfEven y = ⌊y⌋ + 1 ∧ 1 / 2 ≤ y - (⌊y⌋ : ℚ) := by
  unfold roundHalfEven
  split_ifs with h1 h2 h3
  · left; exact ⟨rfl, le_of_lt h1⟩
  · right; exact ⟨rfl, le_of_lt h2⟩
  · left; exact ⟨rfl, not_lt.mp h2⟩
  · right; exact ⟨rfl, not_lt.mp h1⟩

theorem abs_roundHalfEven_sub_le (y : ℚ) : |(roundHalfEven y : ℚ) - y| ≤ 1 / 2 := by
  have h1 := Int.floor_le y
  have h2 := Int.lt_floor_add_one y
  rw [abs_le]
  rcases roundHalfEven_cases y with ⟨h, hle⟩ | ⟨h, hle⟩
  · rw [h]; constructor <;> linarith
  · rw [h]; push_cast; constructor <;> linarith

theorem le_roundHalfEven (y : ℚ) (n : ℤ) (h : (n : ℚ) - 1 / 2 < y) : n ≤ roundHalfEven y := by
  have h1 := abs_roundHalfEven_sub_le y
  rw [abs_le] at h1
  have h2 : (n : ℚ) - 1 < (roundHalfEven y : ℚ) := by linarith [h1.1]
  have h3 : n - 1 < roundHalfEven y := by exact_mod_cast h2
  omega

theorem roundHalfEven_le (y : ℚ) (n : ℤ) (h : y < (n : ℚ) + 1 / 2) : roundHalfEven y ≤ n := by
  have h1 := abs_roundHalfEven_sub_le y
  rw [abs_le] at h1
  have h2 : (roundHalfEven y : ℚ) < (n : ℚ) + 1 := by linarith [h1.2]
  have h3 : roundHalfEven y < n + 1 := by exact_mod_cast h2
  omega

theorem roundHalfEven_eq_of_abs_lt (y : ℚ) (n : ℤ) (h : |y - (n : ℚ)| < 1 / 2) :
    roundHalfEven y = n := by
  rw [abs_lt] at h
  have h1 := le_roundHalfEven y n (by linarith [h.1])
  have h2 := roundHalfEven_le y n (by linarith [h.2])
  omega

theorem roundHalfEven_intCast (n : ℤ) : roundHalfEven (n : ℚ) = n :=
  roundHalfEven_eq_of_abs_lt _ n (by simp)

theorem exponent_ge (x : ℚ) : -1022 ≤ exponent x := by
  unfold exponent
  split_ifs
  · exact le_refl _
  · exact le_max_right _ _

theorem ulp_pos (x : ℚ) : 0 < ulp x := by
  unfold ulp
  positivity

theorem abs_lt_zpow_exponent (x : ℚ) : |x| < (2 : ℚ) ^ (exponent x + 1) := by
  by_cases hx0 : x = 0
  · rw [hx0, abs_zero]
    positivity
  have h1 : |x| < ((2 : ℕ) : ℚ) ^ (Int.log 2 |x| + 1) := Int.lt_zpow_succ_log_self (by norm_num) |x|
  have h2 : Int.log 2 |x| + 1 ≤ exponent x + 1 := by
    have := le_max_left (Int.log 2 |x|) (-1022)
    unfold exponent
    rw [if_neg hx0]
    omega
  have h3 : ((2 : ℕ) : ℚ) ^ (Int.log 2 |x| + 1) ≤ (2 : ℚ) ^ (exponent x + 1) := by
    push_cast
    exact zpow_le_zpow_right₀ (by norm_num) h2
  exact lt_of_lt_of_le h1 h3

theorem exponent_eq (x : ℚ) (e : ℤ) (he : -1022 ≤ e) (h1 : (2 : ℚ) ^ e ≤ |x|)
    (h2 : |x| < (2 : ℚ) ^ (e + 1)) : exponent x = e := by
  have hpos : 0 < |x| := lt_of_lt_of_le (by positivity) h1
  have hlog : Int.log 2 |x| = e := by
    apply le_antisymm
    · have := (Int.lt_zpow_iff_log_lt (R := ℚ) (b := 2) (by norm_num) hpos (x := e + 1)).mp
        (by push_cast; exact h2)
      omega
    · exact (Int.zpow_le_iff_le_log (R := ℚ) (b := 2) (by norm_num) hpos).mp
        (by push_cast; exact h1)
  have hx0 : x ≠ 0 := abs_pos.mp hpos
  unfold exponent
  rw [if_neg hx0, hlog]
  exact max_eq_left he

theorem exponent_eq_min (x : ℚ) (h : |x| < (2 : ℚ) ^ (-1022 : ℤ)) : exponent x = -1022 := by
  unfold exponent
  split_ifs with hx0
  · rfl
  · apply max_eq_right
    have hx : 0 < |x| := abs_pos.mpr hx0
    have := (Int.lt_zpow_iff_log_lt (R := ℚ) (b := 2) (by norm_num) hx (x := -1022)).mp
      (by push_cast; exact h)
    omega

theorem abs_nearest_sub_le (x : ℚ) : |nearest x - x| ≤ ulp x / 2 := by
  have hu := ulp_pos x
  have h := abs_roundHalfEven_sub_le (x / ulp x)
  have hx : nearest x - x = ((roundHalfEven (x / ulp x) : ℚ) - x / ulp x) * ulp x := by
    unfold nearest
    field_simp
  rw [hx, abs_mul, abs_of_pos hu]
  calc |(roundHalfEven (x / ulp x) : ℚ) - x / ulp x| * ulp x ≤ 1 / 2 * ulp x := by
        exact mul_le_mul_of_nonneg_right h (le_of_lt hu)
    _ = ulp x / 2 := by ring

theorem zpow_exponent_le_abs (x : ℚ) (h : (2 : ℚ) ^ (-1022 : ℤ) ≤ |x|) :
    (2 : ℚ) ^ exponent x ≤ |x| := by
  have hpos : 0 < |x| := lt_of_lt_of_le (by positivity) h
  have hx0 : x ≠ 0 := abs_pos.mp hpos
  unfold exponent
  rw [if_neg hx0]
  rcases le_total (Int.log 2 |x|) (-1022) with hle | hle
  · rw [max_eq_right hle]
    exact h
  · rw [max_eq_left hle]
    have := Int.zpow_log_le_self (R := ℚ) (b := 2) (by norm_num) hpos
    push_cast at this
    exact this

theorem ulp_eq_of_exponent (x : ℚ) (e : ℤ) (h : exponent x = e) : ulp x = (2 : ℚ) ^ (e - 52) := by
  unfold ulp
  rw [h]

theorem ulp_le_of_normal (x : ℚ) (h : (2 : ℚ) ^ (-1022 : ℤ) ≤ |x|) :
    ulp x ≤ (2 : ℚ) ^ (-52 : ℤ) * |x| := by
  have h1 := zpow_exponent_le_abs x h
  have h2 : ulp x = (2 : ℚ) ^ (-52 : ℤ) * (2 : ℚ) ^ exponent x := by
    unfold ulp
    rw [← zpow_add₀ (by norm_num : (2 : ℚ) ≠ 0)]
    congr 1
    ring
  rw [h2]
  exact mul_le_mul_of_nonneg_left h1 (by positivity)

theorem ulp_le (x : ℚ) : ulp x ≤ (2 : ℚ) ^ (-52 : ℤ) * |x| + (2 : ℚ) ^ (-1074 : ℤ) := by
  rcases le_or_lt ((2 : ℚ) ^ (-1022 : ℤ)) |x| with h | h
  · have := ulp_le_of_normal x h
    have h0 : (0 : ℚ) ≤ (2 : ℚ) ^ (-1074 : ℤ) := by positivity
    linarith
  · have he := exponent_eq_min x h
    have hu : ulp x = (2 : ℚ) ^ (-1074 : ℤ) := by
      rw [ulp_eq_of_exponent x _ he]
      norm_num
    have h0 : (0 : ℚ) ≤ (2 : ℚ) ^ (-52 : ℤ) * |x| := by positivity
    linarith

/-- The error of rounding to nearest: at most `2^-53 |x|`, or `2^-1075` in the subnormal
range. -/
theorem abs_nearest_sub_le_rel (x : ℚ) :
    |nearest x - x| ≤ (2 : ℚ) ^ (-53 : ℤ) * |x| + (2 : ℚ) ^ (-1075 : ℤ) := by
  have h1 := abs_nearest_sub_le x
  have h2 := ulp_le x
  have h3 : (2 : ℚ) ^ (-52 : ℤ) = 2 * (2 : ℚ) ^ (-53 : ℤ) := by
    rw [show (-52 : ℤ) = 1 + (-53) by norm_num, zpow_add₀ (by norm_num : (2 : ℚ) ≠ 0)]
    norm_num
  have h4 : (2 : ℚ) ^ (-1074 : ℤ) = 2 * (2 : ℚ) ^ (-1075 : ℤ) := by
    rw [show (-1074 : ℤ) = 1 + (-1075) by norm_num, zpow_add₀ (by norm_num : (2 : ℚ) ≠ 0)]
    norm_num
  rw [h3, h4] at h2
  linarith

theorem nearest_eq_of (x : ℚ) (e n : ℤ) (he : -1022 ≤ e) (h1 : (2 : ℚ) ^ e ≤ |x|)
    (h2 : |x| < (2 : ℚ) ^ (e + 1)) (hn : |x / (2 : ℚ) ^ (e - 52) - (n : ℚ)| < 1 / 2) :
    nearest x = (n : ℚ) * (2 : ℚ) ^ (e - 52) := by
  have hu := ulp_eq_of_exponent x e (exponent_eq x e he h1 h2)
  unfold nearest
  rw [hu, roundHalfEven_eq_of_abs_lt _ n hn]

theorem nearest_zero : nearest 0 = 0 := by
  unfold nearest
  rw [zero_div, show ((0 : ℚ)) = ((0 : ℤ) : ℚ) by norm_num, roundHalfEven_intCast]
  simp

theorem nearest_le_of_le (x c : ℚ) (n : ℤ) (hc : c = (n : ℚ) * ulp x) (h : x ≤ c) :
    nearest x ≤ c := by
  have hu := ulp_pos x
  have hy : x / ulp x ≤ (n : ℚ) := by
    rw [div_le_iff₀ hu, ← hc]
    exact h
  have hr := roundHalfEven_le (x / ulp x) n (by linarith)
  have hr' : (roundHalfEven (x / ulp x) : ℚ) ≤ (n : ℚ) := by exact_mod_cast hr
  unfold nearest
  rw [hc]
  exact mul_le_mul_of_nonneg_right hr' (le_of_lt hu)

theorem le_nearest_of_le (x c : ℚ) (n : ℤ) (hc : c = (n : ℚ) * ulp x) (h : c ≤ x) :
    c ≤ nearest x := by
  have hu := ulp_pos x
  have hy : (n : ℚ) ≤ x / ulp x := by
    rw [le_div_iff₀ hu, ← hc]
    exact h
  have hr := le_roundHalfEven (x / ulp x) n (by linarith)
  have hr' : (n : ℚ) ≤ (roundHalfEven (x / ulp x) : ℚ) := by exact_mod_cast hr
  unfold nearest
  rw [hc]
  exact mul_le_mul_of_nonneg_right hr' (le_of_lt hu)

theorem nearest_nonneg (x : ℚ) (h : 0 ≤ x) : 0 ≤ nearest x :=
  le_nearest_of_le x 0 0 (by simp) h

theorem nearest_nonpos (x : ℚ) (h : x ≤ 0) : nearest x ≤ 0 :=
  nearest_le_of_le x 0 0 (by simp) h

theorem round_of_abs_le (x : ℚ) (h : |nearest x| ≤ maxValue) : round x = JSNum.fin (nearest x) := by
  unfold round
  rw [if_neg (not_lt.mpr h)]

theorem exponent_le_of_abs_lt (x : ℚ) (e : ℤ) (he : -1022 ≤ e)
    (h : |x| < (2 : ℚ) ^ (e + 1)) : exponent x ≤ e := by
  unfold exponent
  split_ifs with hx0
  · exact he
  · apply max_le _ he
    have hx : 0 < |x| := abs_pos.mpr hx0
    have := (Int.lt_zpow_iff_log_lt (R := ℚ) (b := 2) (by norm_num) hx (x := e + 1)).mp
      (by push_cast; exact h)
    omega

theorem ulp_le_of_abs_lt (x : ℚ) (e : ℤ) (he : -1022 ≤ e)
    (h : |x| < (2 : ℚ) ^ (e + 1)) : ulp x ≤ (2 : ℚ) ^ (e - 52) := by
  have h1 := exponent_le_of_abs_lt x e he h
  unfold ulp
  exact zpow_le_zpow_right₀ (by norm_num) (by omega)

/-- A multiple of a power of two that is not below the exponent of `ulp x` is a multiple
of `ulp x`. -/
theorem exists_int_mul_ulp (x : ℚ) (m k : ℤ) (hk : exponent x - 52 ≤ k) :
    ∃ n : ℤ, (m : ℚ) * (2 : ℚ) ^ k = (n : ℚ) * ulp x := by
  obtain ⟨j, hj⟩ : ∃ j : ℕ, k = exponent x - 52 + (j : ℤ) :=
    ⟨(k - (exponent x - 52)).toNat, by rw [Int.toNat_of_nonneg (by omega)]; ring⟩
  refine ⟨m * 2 ^ j, ?_⟩
  unfold ulp
  rw [hj, zpow_add₀ (by norm_num : (2 : ℚ) ≠ 0), zpow_natCast]
  push_cast
  ring

theorem nearest_le_of_le_zpow (x : ℚ) (m k : ℤ) (hk : exponent x - 52 ≤ k)
    (h : x ≤ (m : ℚ) * (2 : ℚ) ^ k) : nearest x ≤ (m : ℚ) * (2 : ℚ) ^ k := by
  obtain ⟨n, hn⟩ := exists_int_mul_ulp x m k hk
  exact nearest_le_of_le x _ n hn h

theorem le_nearest_of_zpow_le (x : ℚ) (m k : ℤ) (hk : exponent x - 52 ≤ k)
    (h : (m : ℚ) * (2 : ℚ) ^ k ≤ x) : (m : ℚ) * (2 : ℚ) ^ k ≤ nearest x := by
  obtain ⟨n, hn⟩ := exists_int_mul_ulp x m k hk
  exact le_nearest_of_le x _ n hn h

/-- Rounding does not leave the range of the finite values. -/
theorem abs_nearest_le_maxValue (x : ℚ) (h : |x| ≤ maxValue) : |nearest x| ≤ maxValue := by
  have hlt : |x| < (2 : ℚ) ^ ((1023 : ℤ) + 1) := by
    refine lt_of_le_of_lt h ?_
    unfold maxValue
    norm_num
  have he := exponent_le_of_abs_lt x 1023 (by norm_num) hlt
  have hmax : maxValue = ((2 ^ 53 - 1 : ℤ) : ℚ) * (2 : ℚ) ^ (971 : ℤ) := by
    unfold maxValue
    norm_num
  have hmin : -maxValue = ((-(2 ^ 53 - 1) : ℤ) : ℚ) * (2 : ℚ) ^ (971 : ℤ) := by
    unfold maxValue
    norm_num
  rw [abs_le] at h ⊢
  constructor
  · rw [hmin]
    apply le_nearest_of_zpow_le x _ 971 (by omega)
    rw [← hmin]
    exact h.1
  · rw [hmax]
    apply nearest_le_of_le_zpow x _ 971 (by omega)
    rw [← hmax]
    exact h.2

theorem round_of_abs_le_maxValue (x : ℚ) (h : |x| ≤ maxValue) :
    round x = JSNum.fin (nearest x) :=
  round_of_abs_le x (abs_nearest_le_maxValue x h)

theorem roundHalfEven_mono (x y : ℚ) (h : x ≤ y) : roundHalfEven x ≤ roundHalfEven y := by
  rcases eq_or_lt_of_le h with h | h
  · rw [h]
  · by_contra hlt
    push_neg at hlt
    have h1 := abs_roundHalfEven_sub_le x
    have h2 := abs_roundHalfEven_sub_le y
    rw [abs_le] at h1 h2
    have h3 : (roundHalfEven y : ℚ) + 1 ≤ (roundHalfEven x : ℚ) := by exact_mod_cast hlt
    linarith [h1.2, h2.1]

theorem exponent_mono (x y : ℚ) (hx : 0 ≤ x) (h : x ≤ y) : exponent x ≤ exponent y := by
  rcases eq_or_lt_of_le hx with hx0 | hx0
  · rw [← hx0]
    have : exponent 0 = -1022 := by simp [exponent]
    rw [this]
    exact exponent_ge y
  · have hy0 : 0 < y := lt_of_lt_of_le hx0 h
    unfold exponent
    rw [if_neg (ne_of_gt hx0), if_neg (ne_of_gt hy0), abs_of_pos hx0, abs_of_pos hy0]
    exact max_le_max (Int.log_mono_right hx0 h) (le_refl _)

/-- Rounding to nearest is monotone on the non-negative numbers. -/
theorem nearest_mono (x y : ℚ) (hx : 0 ≤ x) (h : x ≤ y) : nearest x ≤ nearest y := by
  have he := exponent_mono x y hx h
  rcases eq_or_lt_of_le he with he | he
  · have hu : ulp x = ulp y := by unfold ulp; rw [he]
    have hpos := ulp_pos y
    unfold nearest
    rw [hu]
    apply mul_le_mul_of_nonneg_right _ (le_of_lt hpos)
    have := roundHalfEven_mono (x / ulp y) (y / ulp y)
      (div_le_div_of_nonneg_right h (le_of_lt hpos))
    exact_mod_cast this
  · have hy0 : 0 ≤ y := le_trans hx h
    have hmid : (2 : ℚ) ^ (exponent x + 1) ≤ (2 : ℚ) ^ exponent y :=
      zpow_le_zpow_right₀ (by norm_num) (by omega)
    have h1 : nearest x ≤ ((1 : ℤ) : ℚ) * (2 : ℚ) ^ (exponent x + 1) := by
      apply nearest_le_of_le_zpow x 1 _ (by omega)
      have := abs_lt_zpow_exponent x
      rw [abs_of_nonneg hx] at this
      push_cast
      linarith
    have hnorm : (2 : ℚ) ^ (-1022 : ℤ) ≤ |y| := by
      by_contra hlt
      push_neg at hlt
      have := exponent_eq_min y hlt
      have := exponent_ge x
      omega
    have h2 : ((1 : ℤ) : ℚ) * (2 : ℚ) ^ exponent y ≤ nearest y := by
      apply le_nearest_of_zpow_le y 1 _ (by omega)
      have := zpow_exponent_le_abs y hnorm
      rw [abs_of_nonneg hy0] at this
      push_cast
      linarith
    push_cast at h1 h2
    linarith

/-- A multiple of `ulp x` within half an `ulp x` below `x` is not above the rounded `x`. -/
theorem le_nearest_of_sub_lt (x c : ℚ) (n : ℤ) (hc : c = (n : ℚ) * ulp x)
    (h : c - ulp x / 2 < x) : c ≤ nearest x := by
  have hu := ulp_pos x
  have hy : (n : ℚ) - 1 / 2 < x / ulp x := by
    rw [lt_div_iff₀ hu]
    have : ((n : ℚ) - 1 / 2) * ulp x = c - ulp x / 2 := by rw [hc]; ring
    rw [this]
    exact h
  have hr := le_roundHalfEven (x / ulp x) n hy
  have hr' : (n : ℚ) ≤ (roundHalfEven (x / ulp x) : ℚ) := by exact_mod_cast hr
  unfold nearest
  rw [hc]
  exact mul_le_mul_of_nonneg_right hr' (le_of_lt hu)

/-- A multiple of `ulp x` within half an `ulp x` above `x` is not below the rounded `x`. -/
theorem nearest_le_of_lt_add (x c : ℚ) (n : ℤ) (hc : c = (n : ℚ) * ulp x)
    (h : x < c + ulp x / 2) : nearest x ≤ c := by
  have hu := ulp_pos x
  have hy : x / ulp x < (n : ℚ) + 1 / 2 := by
    rw [div_lt_iff₀ hu]
    have : ((n : ℚ) + 1 / 2) * ulp x = c + ulp x / 2 := by rw [hc]; ring
    rw [this]
    exact h
  have hr := roundHalfEven_le (x / ulp x) n hy
  have hr' : (roundHalfEven (x / ulp x) : ℚ) ≤ (n : ℚ) := by exact_mod_cast hr
  unfold nearest
  rw [hc]
  exact mul_le_mul_of_nonneg_right hr' (le_of_lt hu)

/-- A binary64 value rounds to itself. -/
theorem nearest_eq_self_of (x : ℚ) (e n : ℤ) (he : -1022 ≤ e) (h1 : (2 : ℚ) ^ e ≤ |x|)
    (h2 : |x| < (2 : ℚ) ^ (e + 1)) (hn : x = (n : ℚ) * (2 : ℚ) ^ (e - 52)) :
    nearest x = x := by
  have hpos : (0 : ℚ) < (2 : ℚ) ^ (e - 52) := by positivity
  rw [nearest_eq_of x e n he h1 h2 _, ← hn]
  rw [hn, mul_div_assoc, div_self (ne_of_gt hpos)]
  simp

end Binary64

/-! ## `calculateTotalHours` in binary64

The guards and the clamp do not depend on the rounding: a missing start or end and an end
not after the start give `0`, an Invalid Date gives `NaN`, and the result is never
negative. The rounding of the two quotients and of the difference moves the result by a
few units in the last place. -/

theorem Binary64.totalHours_of_falsy (dateParse : String → Option ℤ)
    (startTime endTime : Option String) (breakMinutes : Option JSNum)
    (h : truthy startTime = false ∨ truthy endTime = false) :
    Binary64.calculateTotalHours dateParse startTime endTime breakMinutes = JSNum.fin 0 := by
  rcases h with h | h <;> simp [Binary64.calculateTotalHours, h]

theorem Binary64.totalHours_of_le (dateParse : String → Option ℤ)
    (startTime endTime : String) (breakMinutes : Option JSNum) (s e : ℤ)
    (hs : timeValue dateParse startTime = some s) (he : timeValue dateParse endTime = some e)
    (hle : e ≤ s) :
    Binary64.calculateTotalHours dateParse (some startTime) (some endTime) breakMinutes
      = JSNum.fin 0 := by
  unfold timeValue at hs he
  simp [Binary64.calculateTotalHours, templateText, hs, he, dateLe, hle]

theorem Binary64.totalHours_of_lt (dateParse : String → Option ℤ)
    (startTime endTime : String) (breakMinutes : Option JSNum) (s e : ℤ)
    (hs0 : startTime ≠ "") (he0 : endTime ≠ "")
    (hs : timeValue dateParse startTime = some s) (he : timeValue dateParse endTime = some e)
    (hlt : s < e) :
    Binary64.calculateTotalHours dateParse (some startTime) (some endTime) breakMinutes
      = JSNum.mathMax (JSNum.fin 0)
          (Binary64.sub (Binary64.divLit (Binary64.round ((e - s : ℤ) : ℚ)) (1000 * 60 * 60))
            (Binary64.divLit (breakMinutes.getD (JSNum.fin 0)) 60)) := by
  unfold timeValue at hs he
  have hnle : ¬ e ≤ s := not_le.mpr hlt
  simp [Binary64.calculateTotalHours, truthy, templateText, hs0, he0, hs, he, dateLe, hnle,
    Binary64.dateSub]

theorem Binary64.totalHours_of_invalid (dateParse : String → Option ℤ)
    (startTime endTime : String) (breakMinutes : Option JSNum)
    (hs0 : startTime ≠ "") (he0 : endTime ≠ "")
    (h : timeValue dateParse startTime = none ∨ timeValue dateParse endTime = none) :
    Binary64.calculateTotalHours dateParse (some startTime) (some endTime) breakMinutes
      = JSNum.nan := by
  unfold timeValue at h
  rcases h with h | h
  · cases he : newDate dateParse ("2000-01-01 " ++ endTime) <;>
      simp [Binary64.calculateTotalHours, truthy, templateText, hs0, he0, h, he, dateLe,
        Binary64.dateSub, Binary64.divLit, Binary64.sub, JSNum.mathMax]
  · cases hs : newDate dateParse ("2000-01-01 " ++ startTime) <;>
      simp [Binary64.calculateTotalHours, truthy, templateText, hs0, he0, h, hs, dateLe,
        Binary64.dateSub, Binary64.divLit, Binary64.sub, JSNum.mathMax]

/-- The result is never negative in binary64 either: `result < 0` is false for every
input. -/
theorem Binary64.totalHours_not_lt_zero (dateParse : String → Option ℤ)
    (startTime endTime : Option String) (breakMinutes : Option JSNum) :
    JSNum.lt (Binary64.calculateTotalHours dateParse startTime endTime breakMinutes)
      (JSNum.fin 0) = false := by
  unfold Binary64.calculateTotalHours
  simp only []
  split_ifs
  · simp [JSNum.lt]
  · simp [JSNum.lt]
  · generalize Binary64.sub _ _ = x
    cases x <;> simp [JSNum.mathMax, JSNum.lt]

/-- An integer below `2^53` in magnitude is a binary64 value. -/
theorem Binary64.nearest_intCast (n : ℤ) (h : |(n : ℚ)| < 2 ^ 53) :
    Binary64.nearest (n : ℚ) = (n : ℚ) := by
  have habs : |(n : ℚ)| < (2 : ℚ) ^ ((52 : ℤ) + 1) := by
    norm_num
    exact h
  have he := Binary64.exponent_le_of_abs_lt (n : ℚ) 52 (by norm_num) habs
  obtain ⟨k, hk⟩ := Binary64.exists_int_mul_ulp (n : ℚ) n 0 (by omega)
  have hu := Binary64.ulp_pos (n : ℚ)
  have hk' : (n : ℚ) = (k : ℚ) * Binary64.ulp (n : ℚ) := by simpa using hk
  have hdiv : (n : ℚ) / Binary64.ulp (n : ℚ) = (k : ℚ) := by
    rw [div_eq_iff (ne_of_gt hu)]
    exact hk'
  unfold Binary64.nearest
  rw [hdiv, Binary64.roundHalfEven_intCast]
  exact hk'.symm

/-- The value `calculateTotalHours` returns for a start before the end (a span of less
than `2^53` milliseconds) and a finite break `b >= 0`: the clamp of the rounded difference
of the two rounded quotients. -/
theorem Binary64.totalHours_eq (dateParse : String → Option ℤ)
    (startTime endTime : String) (breakMinutes : Option JSNum) (s e : ℤ) (b : ℚ)
    (hs0 : startTime ≠ "") (he0 : endTime ≠ "")
    (hs : timeValue dateParse startTime = some s) (he : timeValue dateParse endTime = some e)
    (hlt : s < e) (hspan : e - s < 2 ^ 53)
    (hb : breakMinutes.getD (JSNum.fin 0) = JSNum.fin b)
    (hb0 : 0 ≤ b) (hbmax : b ≤ Binary64.maxValue) :
    Binary64.calculateTotalHours dateParse (some startTime) (some endTime) breakMinutes
      = JSNum.fin (max 0 (Binary64.nearest
          (Binary64.nearest (((e - s : ℤ) : ℚ) / 3600000) - Binary64.nearest (b / 60)))) := by
  have hd0 : (0 : ℚ) < ((e - s : ℤ) : ℚ) := by
    have : 0 < e - s := by omega
    exact_mod_cast this
  have hd1 : ((e - s : ℤ) : ℚ) < 2 ^ 53 := by exact_mod_cast hspan
  have hmax : (2 : ℚ) ^ 53 ≤ Binary64.maxValue := by
    unfold Binary64.maxValue
    norm_num
  have hr1 : Binary64.round ((e - s : ℤ) : ℚ) = JSNum.fin ((e - s : ℤ) : ℚ) := by
    rw [Binary64.round_of_abs_le_maxValue _ (by rw [abs_of_pos hd0]; linarith),
      Binary64.nearest_intCast _ (by rw [abs_of_pos hd0]; exact hd1)]
  have hD0 : (0 : ℚ) ≤ ((e - s : ℤ) : ℚ) / 3600000 := by positivity
  have hD1 : ((e - s : ℤ) : ℚ) / 3600000 ≤ Binary64.maxValue := by
    have : ((e - s : ℤ) : ℚ) / 3600000 ≤ ((e - s : ℤ) : ℚ) :=
      div_le_self (le_of_lt hd0) (by norm_num)
    linarith
  have hB0 : (0 : ℚ) ≤ b / 60 := by positivity
  have hB1 : b / 60 ≤ Binary64.maxValue := by
    have : b / 60 ≤ b := div_le_self hb0 (by norm_num)
    linarith
  have hr2 : Binary64.round (((e - s : ℤ) : ℚ) / 3600000)
      = JSNum.fin (Binary64.nearest (((e - s : ℤ) : ℚ) / 3600000)) :=
    Binary64.round_of_abs_le_maxValue _ (by rw [abs_of_nonneg hD0]; exact hD1)
  have hr3 : Binary64.round (b / 60) = JSNum.fin (Binary64.nearest (b / 60)) :=
    Binary64.round_of_abs_le_maxValue _ (by rw [abs_of_nonneg hB0]; exact hB1)
  have hn1 := Binary64.abs_nearest_le_maxValue _ (by rw [abs_of_nonneg hD0]; exact hD1)
  have hn2 := Binary64.abs_nearest_le_maxValue _ (by rw [abs_of_nonneg hB0]; exact hB1)
  have hp1 := Binary64.nearest_nonneg _ hD0
  have hp2 := Binary64.nearest_nonneg _ hB0
  rw [abs_of_nonneg hp1] at hn1
  rw [abs_of_nonneg hp2] at hn2
  have hr4 : Binary64.round
      (Binary64.nearest (((e - s : ℤ) : ℚ) / 3600000) - Binary64.nearest (b / 60))
      = JSNum.fin (Binary64.nearest
          (Binary64.nearest (((e - s : ℤ) : ℚ) / 3600000) - Binary64.nearest (b / 60))) := by
    apply Binary64.round_of_abs_le_maxValue
    rw [abs_le]
    constructor <;> linarith
  rw [Binary64.totalHours_of_lt dateParse startTime endTime breakMinutes s e hs0 he0 hs he hlt,
    hb, hr1]
  have h36 : (1000 * 60 * 60 : ℚ) = 3600000 := by norm_num
  simp only [Binary64.divLit, h36, hr2, hr3, Binary64.sub, hr4, JSNum.mathMax]

/-- With the break `Infinity` the difference is `-Infinity` and the clamp gives `0`. -/
theorem Binary64.totalHours_of_infinite_break (dateParse : String → Option ℤ)
    (startTime endTime : String) (s e : ℤ)
    (hs0 : startTime ≠ "") (he0 : endTime ≠ "")
    (hs : timeValue dateParse startTime = some s) (he : timeValue dateParse endTime = some e)
    (hlt : s < e) (hspan : e - s < 2 ^ 53) :
    Binary64.calculateTotalHours dateParse (some startTime) (some endTime)
      (some JSNum.posInf) = JSNum.fin 0 := by
  have hd0 : (0 : ℚ) < ((e - s : ℤ) : ℚ) := by
    have : 0 < e - s := by omega
    exact_mod_cast this
  have hd1 : ((e - s : ℤ) : ℚ) < 2 ^ 53 := by exact_mod_cast hspan
  have hmax : (2 : ℚ) ^ 53 ≤ Binary64.maxValue := by
    unfold Binary64.maxValue
    norm_num
  have hr1 : Binary64.round ((e - s : ℤ) : ℚ) = JSNum.fin ((e - s : ℤ) : ℚ) := by
    rw [Binary64.round_of_abs_le_maxValue _ (by rw [abs_of_pos hd0]; linarith),
      Binary64.nearest_intCast _ (by rw [abs_of_pos hd0]; exact hd1)]
  have hD0 : (0 : ℚ) ≤ ((e - s : ℤ) : ℚ) / (1000 * 60 * 60) := by positivity
  have hD1 : ((e - s : ℤ) : ℚ) / (1000 * 60 * 60) ≤ Binary64.maxValue := by
    have : ((e - s : ℤ) : ℚ) / (1000 * 60 * 60) ≤ ((e - s : ℤ) : ℚ) :=
      div_le_self (le_of_lt hd0) (by norm_num)
    linarith
  have hr2 := Binary64.round_of_abs_le_maxValue (((e - s : ℤ) : ℚ) / (1000 * 60 * 60))
    (by rw [abs_of_nonneg hD0]; exact hD1)
  rw [Binary64.totalHours_of_lt dateParse startTime endTime _ s e hs0 he0 hs he hlt, hr1]
  simp only [Binary64.divLit, hr2, Option.getD_some, Binary64.sub, JSNum.mathMax]

/-- The error of the binary64 evaluation of `max(0, D - B)` for `D, B >= 0`: each quotient
and the difference are rounded once. -/
theorem Binary64.abs_totalHours_sub_le (D B : ℚ) (hD : 0 ≤ D) (hB : 0 ≤ B) :
    |max 0 (Binary64.nearest (Binary64.nearest D - Binary64.nearest B)) - max 0 (D - B)|
      ≤ (2 : ℚ) ^ (-51 : ℤ) * (D + B) + (2 : ℚ) ^ (-1073 : ℤ) := by
  have h1 := Binary64.abs_nearest_sub_le_rel D
  have h2 := Binary64.abs_nearest_sub_le_rel B
  have h3 := Binary64.abs_nearest_sub_le_rel (Binary64.nearest D - Binary64.nearest B)
  rw [abs_of_nonneg hD] at h1
  rw [abs_of_nonneg hB] at h2
  have hu : (2 : ℚ) ^ (-53 : ℤ) = 1 / 9007199254740992 := by norm_num
  have hu4 : (2 : ℚ) ^ (-51 : ℤ) = 4 / 9007199254740992 := by norm_num
  have hη : (2 : ℚ) ^ (-1073 : ℤ) = 4 * (2 : ℚ) ^ (-1075 : ℤ) := by
    rw [show (-1073 : ℤ) = 2 + (-1075) by norm_num, zpow_add₀ (by norm_num : (2 : ℚ) ≠ 0)]
    norm_num
  have hη0 : (0 : ℚ) < (2 : ℚ) ^ (-1075 : ℤ) := by positivity
  rw [hu] at h1 h2 h3
  rw [hu4, hη]
  generalize (2 : ℚ) ^ (-1075 : ℤ) = η at h1 h2 h3 hη0
  have hz : |Binary64.nearest D - Binary64.nearest B|
      ≤ D + B + 1 / 9007199254740992 * (D + B) + 2 * η := by
    rw [abs_le] at h1 h2 ⊢
    constructor <;> linarith [h1.1, h1.2, h2.1, h2.2]
  have hmain : |Binary64.nearest (Binary64.nearest D - Binary64.nearest B) - (D - B)|
      ≤ 4 / 9007199254740992 * (D + B) + 4 * η := by
    rw [abs_le] at h1 h2 h3 ⊢
    constructor <;> linarith [h1.1, h1.2, h2.1, h2.2, h3.1, h3.2]
  have hlip := abs_max_sub_max_le_abs
    (Binary64.nearest (Binary64.nearest D - Binary64.nearest B)) (D - B) 0
  rw [max_comm _ (0 : ℚ), max_comm _ (0 : ℚ)] at hlip
  exact le_trans hlip hmain

/-- C1, as stated, fails: from 09:00 to 10:05 with a break of 5 minutes the exact value of
`max(0, (end - start) in hours - b / 60)` is 1, and the code returns
`0.9999999999999999`, the binary64 value `1 - 2^-53`: the quotients `65 / 60` and `5 / 60`
are each rounded before they are subtracted. -/
theorem calculateTotalHours_duration_counterexample :
    timeValue refDateParse "09:00" = some 946717200000 ∧
    timeValue refDateParse "10:05" = some 946721100000 ∧
    max 0 (((946721100000 - 946717200000 : ℤ) : ℚ) / 3600000 - 5 / 60) = 1 ∧
    Binary64.calculateTotalHours refDateParse (some "09:00") (some "10:05")
      (some (JSNum.fin 5)) = JSNum.fin (9007199254740991 / 9007199254740992) ∧
    JSNum.fin (9007199254740991 / 9007199254740992) ≠ JSNum.fin 1 := by
  have hD : Binary64.nearest (13 / 12) = 4878899596318037 / 4503599627370496 := by
    have := Binary64.nearest_eq_of (13 / 12) 0 4878899596318037 (by norm_num)
      (by norm_num [abs_of_pos]) (by norm_num [abs_of_pos]) (by norm_num [abs_lt])
    rw [this]
    norm_num
  have hB : Binary64.nearest (1 / 12) = 6004799503160661 / 72057594037927936 := by
    have := Binary64.nearest_eq_of (1 / 12) (-4) 6004799503160661 (by norm_num)
      (by norm_num [abs_of_pos]) (by norm_num [abs_of_pos]) (by norm_num [abs_lt])
    rw [this]
    norm_num
  have hZ : Binary64.nearest (72057594037927931 / 72057594037927936)
      = 9007199254740991 / 9007199254740992 := by
    have := Binary64.nearest_eq_of (72057594037927931 / 72057594037927936) (-1)
      9007199254740991 (by norm_num) (by norm_num [abs_of_pos]) (by norm_num [abs_of_pos])
      (by norm_num [abs_lt])
    rw [this]
    norm_num
  refine ⟨by decide, by decide, by norm_num, ?_, ?_⟩
  · rw [Binary64.totalHours_eq refDateParse "09:00" "10:05" (some (JSNum.fin 5))
      946717200000 946721100000 5 (by decide) (by decide) (by decide) (by decide)
      (by decide) (by norm_num) rfl (by norm_num) (by unfold Binary64.maxValue; norm_num)]
    have h1 : ((946721100000 - 946717200000 : ℤ) : ℚ) / 3600000 = 13 / 12 := by norm_num
    have h2 : (5 : ℚ) / 60 = 1 / 12 := by norm_num
    have h3 : (4878899596318037 / 4503599627370496 : ℚ) - 6004799503160661 / 72057594037927936
        = 72057594037927931 / 72057594037927936 := by norm_num
    rw [h1, h2, hD, hB, h3, hZ]
    norm_num
  · intro h
    have h' := JSNum.fin.inj h
    norm_num at h'

/-- C1, amended. For parseable start and end times (non-empty texts) with the start
strictly before the end, less than `2^53` milliseconds apart, and a finite break of
`b >= 0` minutes, `calculateTotalHours` returns the binary64 evaluation of
`max(0, D - B)` for `D = (end - start) / 3600000` hours and `B = b / 60`: each quotient
and the difference are rounded to the nearest binary64 value. The result `r` is not
negative, is within `2^-51 * (D + B) + 2^-1073` of the exact `max(0, D - B)`, is exactly `0`
when `D <= B`, and is exactly `max(0, D - B)` when `D`, `B` and `D - B` are binary64
values. With the break left out the default `0` applies, and with the break `Infinity`
the result is `0`. -/
theorem calculateTotalHours_binary64_duration (dateParse : String → Option ℤ)
    (startTime endTime : String) (s e : ℤ) (b : ℚ)
    (hs0 : startTime ≠ "") (he0 : endTime ≠ "")
    (hs : timeValue dateParse startTime = some s) (he : timeValue dateParse endTime = some e)
    (hlt : s < e) (hspan : e - s < 2 ^ 53) (hb0 : 0 ≤ b) (hbmax : b ≤ Binary64.maxValue) :
    Binary64.calculateTotalHours dateParse (some startTime) (some endTime)
        (some JSNum.posInf) = JSNum.fin 0 ∧
    ∃ r : ℚ,
      Binary64.calculateTotalHours dateParse (some startTime) (some endTime)
        (some (JSNum.fin b)) = JSNum.fin r ∧
      (b = 0 → Binary64.calculateTotalHours dateParse (some startTime) (some endTime) none
        = JSNum.fin r) ∧
      0 ≤ r ∧
      |r - max 0 (((e - s : ℤ) : ℚ) / 3600000 - b / 60)|
        ≤ (2 : ℚ) ^ (-51 : ℤ) * (((e - s : ℤ) : ℚ) / 3600000 + b / 60)
          + (2 : ℚ) ^ (-1073 : ℤ) ∧
      (((e - s : ℤ) : ℚ) / 3600000 ≤ b / 60 → r = 0) ∧
      (Binary64.nearest (((e - s : ℤ) : ℚ) / 3600000) = ((e - s : ℤ) : ℚ) / 3600000 →
        Binary64.nearest (b / 60) = b / 60 →
        Binary64.nearest (((e - s : ℤ) : ℚ) / 3600000 - b / 60)
          = ((e - s : ℤ) : ℚ) / 3600000 - b / 60 →
        r = max 0 (((e - s : ℤ) : ℚ) / 3600000 - b / 60)) := by
  have hD0 : (0 : ℚ) ≤ ((e - s : ℤ) : ℚ) / 3600000 := by
    have : 0 < e - s := by omega
    have : (0 : ℚ) < ((e - s : ℤ) : ℚ) := by exact_mod_cast this
    positivity
  have hB0 : (0 : ℚ) ≤ b / 60 := by positivity
  refine ⟨Binary64.totalHours_of_infinite_break dateParse startTime endTime s e hs0 he0 hs he
    hlt hspan, _, Binary64.totalHours_eq dateParse startTime endTime (some (JSNum.fin b)) s e b
    hs0 he0 hs he hlt hspan rfl hb0 hbmax, ?_, le_max_left _ _,
    Binary64.abs_totalHours_sub_le _ _ hD0 hB0, ?_, ?_⟩
  · intro hb
    subst hb
    exact Binary64.totalHours_eq dateParse startTime endTime none s e 0
      hs0 he0 hs he hlt hspan rfl hb0 hbmax
  · intro hle
    have hmono := Binary64.nearest_mono _ _ hD0 hle
    have hz := Binary64.nearest_nonpos
      (Binary64.nearest (((e - s : ℤ) : ℚ) / 3600000) - Binary64.nearest (b / 60))
      (by linarith)
    exact max_eq_left hz
  · intro h1 h2 h3
    rw [h1, h2, h3]

/-- The examples of C1: 09:00 to 17:00 is 7.5 hours with a break of 30 minutes and
8 hours with none; the quotients and the differences are binary64 values. -/
theorem calculateTotalHours_binary64_duration_witness :
    timeValue refDateParse "09:00" = some 946717200000 ∧
    timeValue refDateParse "17:00" = some 946746000000 ∧
    Binary64.calculateTotalHours refDateParse (some "09:00") (some "17:00")
      (some (JSNum.fin 30)) = JSNum.fin (15 / 2) ∧
    Binary64.calculateTotalHours refDateParse (some "09:00") (some "17:00")
      (some (JSNum.fin 0)) = JSNum.fin 8 ∧
    Binary64.calculateTotalHours refDateParse (some "09:00") (some "17:00") none
      = JSNum.fin 8 := by
  have hD : ((946746000000 - 946717200000 : ℤ) : ℚ) / 3600000 = 8 := by norm_num
  have h8 : Binary64.nearest 8 = 8 :=
    Binary64.nearest_eq_self_of 8 3 4503599627370496 (by norm_num)
      (by norm_num [abs_of_pos]) (by norm_num [abs_of_pos]) (by norm_num)
  have hhalf : Binary64.nearest (1 / 2) = 1 / 2 :=
    Binary64.nearest_eq_self_of (1 / 2) (-1) 4503599627370496 (by norm_num)
      (by norm_num [abs_of_pos]) (by norm_num [abs_of_pos]) (by norm_num)
  have h75 : Binary64.nearest (15 / 2) = 15 / 2 :=
    Binary64.nearest_eq_self_of (15 / 2) 2 8444249301319680 (by norm_num)
      (by norm_num [abs_of_pos]) (by norm_num [abs_of_pos]) (by norm_num)
  obtain ⟨-, r, hr, -, -, -, -, hexact⟩ :=
    calculateTotalHours_binary64_duration refDateParse "09:00" "17:00" 946717200000
      946746000000 30 (by decide) (by decide) (by decide) (by decide) (by decide)
      (by norm_num) (by norm_num) (by unfold Binary64.maxValue; norm_num)
  obtain ⟨-, r0, hr0, hnone, -, -, -, hexact0⟩ :=
    calculateTotalHours_binary64_duration refDateParse "09:00" "17:00" 946717200000
      946746000000 0 (by decide) (by decide) (by decide) (by decide) (by decide)
      (by norm_num) (by norm_num) (by unfold Binary64.maxValue; norm_num)
  have hr' : r = 15 / 2 := by
    rw [hexact (by rw [hD]; exact h8) (by norm_num; exact hhalf)
      (by rw [hD]; norm_num; exact h75), hD]
    norm_num
  have hr0' : r0 = 8 := by
    rw [hexact0 (by rw [hD]; exact h8) (by norm_num; exact Binary64.nearest_zero)
      (by rw [hD]; norm_num; exact h8), hD]
    norm_num
  refine ⟨by decide, by decide, ?_, ?_, ?_⟩
  · rw [hr, hr']
  · rw [hr0, hr0']
  · rw [hnone rfl, hr0']

/-! ## Properties of `calculateTotalHours` -/

theorem calculateTotalHours_of_falsy (dateParse : String → Option ℤ)
    (startTime endTime : Option String) (breakMinutes : Option JSNum)
    (h : truthy startTime = false ∨ truthy endTime = false) :
    calculateTotalHours dateParse startTime endTime breakMinutes = JSNum.fin 0 := by
  rcases h with h | h <;> simp [calculateTotalHours, h]

theorem calculateTotalHours_of_le (dateParse : String → Option ℤ)
    (startTime endTime : String) (breakMinutes : Option JSNum) (s e : ℤ)
    (hs : timeValue dateParse startTime = some s) (he : timeValue dateParse endTime = some e)
    (hle : e ≤ s) :
    calculateTotalHours dateParse (some startTime) (some endTime) breakMinutes = JSNum.fin 0 := by
  unfold timeValue at hs he
  simp [calculateTotalHours, templateText, hs, he, dateLe, hle]

theorem calculateTotalHours_of_lt (dateParse : String → Option ℤ)
    (startTime endTime : String) (breakMinutes : Option JSNum) (s e : ℤ)
    (hs0 : startTime ≠ "") (he0 : endTime ≠ "")
    (hs : timeValue dateParse startTime = some s) (he : timeValue dateParse endTime = some e)
    (hlt : s < e) :
    calculateTotalHours dateParse (some startTime) (some endTime) breakMinutes
      = JSNum.mathMax (JSNum.fin 0)
          (JSNum.sub (JSNum.fin (((e - s : ℤ) : ℚ) / 3600000))
            (JSNum.divLit (breakMinutes.getD (JSNum.fin 0)) 60)) := by
  unfold timeValue at hs he
  have hnle : ¬ e ≤ s := not_le.mpr hlt
  simp [calculateTotalHours, truthy, templateText, hs0, he0, hs, he, dateLe, hnle, dateSub,
    JSNum.divLit]
  norm_num

theorem JSNum.lt_mathMax_zero (x : JSNum) :
    JSNum.lt (JSNum.mathMax (JSNum.fin 0) x) (JSNum.fin 0) = false := by
  cases x <;> simp [JSNum.mathMax, JSNum.lt]

theorem JSNum.le_mathMax_zero (x : JSNum) (hx : x ≠ JSNum.nan) :
    JSNum.le (JSNum.fin 0) (JSNum.mathMax (JSNum.fin 0) x) = true := by
  cases x <;> simp_all [JSNum.mathMax, JSNum.le]

theorem JSNum.sub_fin_ne_nan (p : ℚ) (y : JSNum) (hy : y ≠ JSNum.nan) :
    JSNum.sub (JSNum.fin p) y ≠ JSNum.nan := by
  cases y <;> simp_all [JSNum.sub]

theorem JSNum.divLit_ne_nan (x : JSNum) (c : ℚ) (hx : x ≠ JSNum.nan) :
    JSNum.divLit x c ≠ JSNum.nan := by
  cases x <;> simp_all [JSNum.divLit]

theorem JSNum.mathMax_zero_sub_of_le (p : ℚ) (y : JSNum)
    (h : JSNum.le (JSNum.fin p) y = true) :
    JSNum.mathMax (JSNum.fin 0) (JSNum.sub (JSNum.fin p) y) = JSNum.fin 0 := by
  cases y <;> simp_all [JSNum.mathMax, JSNum.sub, JSNum.le]

theorem calculateTotalHours_cases (dateParse : String → Option ℤ)
    (startTime endTime : Option String) (breakMinutes : Option JSNum) :
    calculateTotalHours dateParse startTime endTime breakMinutes = JSNum.fin 0 ∨
    ∃ x, calculateTotalHours dateParse startTime endTime breakMinutes
      = JSNum.mathMax (JSNum.fin 0) x := by
  unfold calculateTotalHours
  simp only []
  split_ifs
  · exact Or.inl rfl
  · exact Or.inl rfl
  · exact Or.inr ⟨_, rfl⟩

/-- C2. For parseable start and end times with the end not after the start (the same time,
or an end before the start as in an overnight span) and every break value, given or left out,
`calculateTotalHours` is exactly `0`. -/
theorem calculateTotalHours_end_not_after_start (dateParse : String → Option ℤ)
    (startTime endTime : String) (breakMinutes : Option JSNum) (s e : ℤ)
    (hs : timeValue dateParse startTime = some s) (he : timeValue dateParse endTime = some e)
    (hle : e ≤ s) :
    calculateTotalHours dateParse (some startTime) (some endTime) breakMinutes = JSNum.fin 0 :=
  calculateTotalHours_of_le dateParse startTime endTime breakMinutes s e hs he hle

/-- The examples of C2: 17:00 to 09:00 and 09:00 to 09:00 give `0`. -/
theorem calculateTotalHours_end_not_after_start_witness :
    calculateTotalHours refDateParse (some "17:00") (some "09:00") (some (JSNum.fin 0))
      = JSNum.fin 0 ∧
    calculateTotalHours refDateParse (some "09:00") (some "09:00") (some (JSNum.fin 0))
      = JSNum.fin 0 :=
  ⟨calculateTotalHours_end_not_after_start refDateParse "17:00" "09:00" (some (JSNum.fin 0))
      946746000000 946717200000 (by decide) (by decide) (by decide),
   calculateTotalHours_end_not_after_start refDateParse "09:00" "09:00" (some (JSNum.fin 0))
      946717200000 946717200000 (by decide) (by decide) (by decide)⟩

/-- C3. If the start argument or the end argument is absent (`undefined`) or the empty
string, `calculateTotalHours` is the number `0`, whatever the other two arguments are. -/
theorem calculateTotalHours_missing (dateParse : String → Option ℤ)
    (startTime endTime : Option String) (breakMinutes : Option JSNum)
    (h : startTime = none ∨ startTime = some "" ∨ endTime = none ∨ endTime = some "") :
    calculateTotalHours dateParse startTime endTime breakMinutes = JSNum.fin 0 := by
  apply calculateTotalHours_of_falsy
  rcases h with h | h | h | h <;> subst h <;> simp [truthy]

/-- The example of C3: a missing start, `("", "17:00", 0)`, gives `0`. -/
theorem calculateTotalHours_missing_witness :
    calculateTotalHours refDateParse (some "") (some "17:00") (some (JSNum.fin 0))
      = JSNum.fin 0 :=
  calculateTotalHours_missing refDateParse (some "") (some "17:00") (some (JSNum.fin 0))
    (Or.inr (Or.inl rfl))

/-! ## The reference parser and the number texts on examples -/

theorem refDateParse_examples :
    refDateParse ("2000-01-01 " ++ "09:00") = some 946717200000 ∧
    refDateParse ("2000-01-01 " ++ "09:00:30") = some 946717230000 ∧
    refDateParse ("2000-01-01 " ++ "9:00") = some 946717200000 ∧
    refDateParse ("2000-01-01 " ++ "24:00") = some 946771200000 ∧
    refDateParse ("2000-01-01 " ++ "24:01") = none ∧
    refDateParse ("2000-01-01 " ++ "") = some 946684800000 ∧
    refDateParse ("2000-01-01 " ++ " ") = some 946684800000 ∧
    refDateParse ("2000-01-01 " ++ "abc") = none ∧
    refDateParse ("2000-01-01 " ++ "undefined") = none := by decide

set_option maxRecDepth 100000 in
theorem numberToString_examples :
    numberToString (JSIntegral.int 0) = "0" ∧
    numberToString (JSIntegral.int (-7)) = "-7" ∧
    numberToString (JSIntegral.int (2 ^ 53 - 1)) = "9007199254740991" ∧
    numberToString (JSIntegral.int (2 ^ 53)) = "9007199254740992" ∧
    numberToString (JSIntegral.int (2 ^ 53 + 1)) = "9007199254740992" ∧
    numberToString (JSIntegral.int (2 ^ 53 + 3)) = "9007199254740996" ∧
    numberToString (JSIntegral.int (2 ^ 64)) = "18446744073709552000" ∧
    numberToString (JSIntegral.int (2 ^ 70)) = "1.1805916207174113e+21" ∧
    numberToString (JSIntegral.int (10 ^ 21)) = "1e+21" ∧
    numberToString (JSIntegral.int (-15 * 10 ^ 20)) = "-1.5e+21" ∧
    numberToString (JSIntegral.int (123456789012345678901234567890))
      = "1.2345678901234568e+29" := by decide

theorem calculateTotalHours_clamped (dateParse : String → Option ℤ)
    (startTime endTime : String) (breakMinutes : Option JSNum) (s e : ℤ)
    (hs : timeValue dateParse startTime = some s) (he : timeValue dateParse endTime = some e)
    (hbreak : JSNum.le (JSNum.fin (((e - s : ℤ) : ℚ) / 3600000))
      (JSNum.divLit (breakMinutes.getD (JSNum.fin 0)) 60) = true) :
    calculateTotalHours dateParse (some startTime) (some endTime) breakMinutes = JSNum.fin 0 := by
  by_cases hs0 : startTime = ""
  · exact calculateTotalHours_of_falsy _ _ _ _ (Or.inl (by simp [truthy, hs0]))
  by_cases he0 : endTime = ""
  · exact calculateTotalHours_of_falsy _ _ _ _ (Or.inr (by simp [truthy, he0]))
  rcases le_or_lt e s with hle | hlt
  · exact calculateTotalHours_of_le dateParse startTime endTime breakMinutes s e hs he hle
  · rw [calculateTotalHours_of_lt dateParse startTime endTime breakMinutes s e hs0 he0 hs he hlt]
    exact JSNum.mathMax_zero_sub_of_le _ _ hbreak

theorem calculateTotalHours_zero_le (dateParse : String → Option ℤ)
    (startTime endTime : Option String) (breakMinutes : Option JSNum)
    (hstart : ParseableOrAbsent dateParse startTime)
    (hend : ParseableOrAbsent dateParse endTime)
    (hbreak : breakMinutes ≠ some JSNum.nan) :
    JSNum.le (JSNum.fin 0)
      (calculateTotalHours dateParse startTime endTime breakMinutes) = true := by
  have hzero : JSNum.le (JSNum.fin 0) (JSNum.fin 0) = true := by simp [JSNum.le]
  cases startTime with
  | none => rw [calculateTotalHours_of_falsy dateParse none endTime _ (Or.inl rfl)]; exact hzero
  | some st =>
    cases endTime with
    | none => rw [calculateTotalHours_of_falsy dateParse (some st) none _ (Or.inr rfl)]; exact hzero
    | some en =>
      by_cases hs0 : st = ""
      · rw [calculateTotalHours_of_falsy _ _ _ _ (Or.inl (by simp [truthy, hs0]))]; exact hzero
      by_cases he0 : en = ""
      · rw [calculateTotalHours_of_falsy _ _ _ _ (Or.inr (by simp [truthy, he0]))]; exact hzero
      have hs1 : (timeValue dateParse st).isSome = true := by
        rcases hstart with h | h
        · exact absurd h hs0
        · exact h
      have he1 : (timeValue dateParse en).isSome = true := by
        rcases hend with h | h
        · exact absurd h he0
        · exact h
      obtain ⟨s, hs⟩ := Option.isSome_iff_exists.mp hs1
      obtain ⟨e, he⟩ := Option.isSome_iff_exists.mp he1
      rcases le_or_lt e s with hle | hlt
      · rw [calculateTotalHours_of_le dateParse st en breakMinutes s e hs he hle]; exact hzero
      · rw [calculateTotalHours_of_lt dateParse st en breakMinutes s e hs0 he0 hs he hlt]
        apply JSNum.le_mathMax_zero
        apply JSNum.sub_fin_ne_nan
        apply JSNum.divLit_ne_nan
        cases breakMinutes with
        | none => simp
        | some b =>
          intro hb
          exact hbreak (by simpa using hb)

/-- C4. For every start and end that are each absent, empty or parseable and every break
value, the result of `calculateTotalHours` is not negative (`result < 0` is false); it is a
number `>= 0` unless the break is `NaN`; and whenever the break in hours is at least the
span `end - start` in hours, the result is exactly `0`. -/
theorem calculateTotalHours_never_negative (dateParse : String → Option ℤ)
    (startTime endTime : Option String) (breakMinutes : Option JSNum)
    (hstart : ParseableOrAbsent dateParse startTime)
    (hend : ParseableOrAbsent dateParse endTime) :
    JSNum.lt (calculateTotalHours dateParse startTime endTime breakMinutes) (JSNum.fin 0)
        = false ∧
      (breakMinutes ≠ some JSNum.nan →
        JSNum.le (JSNum.fin 0)
          (calculateTotalHours dateParse startTime endTime breakMinutes) = true) ∧
      (∀ (st en : String) (s e : ℤ), startTime = some st → endTime = some en →
        timeValue dateParse st = some s → timeValue dateParse en = some e →
        JSNum.le (JSNum.fin (((e - s : ℤ) : ℚ) / 3600000))
          (JSNum.divLit (breakMinutes.getD (JSNum.fin 0)) 60) = true →
        calculateTotalHours dateParse startTime endTime breakMinutes = JSNum.fin 0) := by
  refine ⟨?_, ?_, ?_⟩
  · rcases calculateTotalHours_cases dateParse startTime endTime breakMinutes with h | ⟨x, h⟩
    · rw [h]; simp [JSNum.lt]
    · rw [h]; exact JSNum.lt_mathMax_zero x
  · exact calculateTotalHours_zero_le dateParse startTime endTime breakMinutes hstart hend
  · intro st en s e hst hen hs he hbreak
    subst hst hen
    exact calculateTotalHours_clamped dateParse st en breakMinutes s e hs he hbreak

/-- An instance of C4: 09:00 to 10:00 with a break of 90 minutes is clamped to `0`, and
with a break of 15 minutes the result, 0.75, is not negative. -/
theorem calculateTotalHours_never_negative_witness :
    ParseableOrAbsent refDateParse (some "09:00") ∧
    ParseableOrAbsent refDateParse (some "10:00") ∧
    calculateTotalHours refDateParse (some "09:00") (some "10:00") (some (JSNum.fin 90))
      = JSNum.fin 0 ∧
    JSNum.lt (calculateTotalHours refDateParse (some "09:00") (some "10:00")
      (some (JSNum.fin 15))) (JSNum.fin 0) = false :=
  ⟨by decide, by decide,
   (calculateTotalHours_never_negative refDateParse (some "09:00") (some "10:00")
      (some (JSNum.fin 90)) (by decide) (by decide)).2.2 "09:00" "10:00"
      946717200000 946720800000 rfl rfl (by decide) (by decide)
      (by simp [JSNum.le, JSNum.divLit]; norm_num),
   (calculateTotalHours_never_negative refDateParse (some "09:00") (some "10:00")
      (some (JSNum.fin 15)) (by decide) (by decide)).1⟩

/-! ## Properties of `timesOverlap` and `checkTimeOverlap` -/

theorem timesOverlap_eq (dateParse : String → Option ℤ) (start1 end1 start2 end2 : String) :
    timesOverlap dateParse start1 end1 start2 end2
      = (dateLt (timeValue dateParse start1) (timeValue dateParse end2) &&
          dateLt (timeValue dateParse start2) (timeValue dateParse end1)) := rfl

theorem dateLt_irrefl (d : Option ℤ) : dateLt d d = false := by
  cases d <;> simp [dateLt]

theorem pairOverlap_comm (dateParse : String → Option ℤ) (entry1 entry2 : Entry) :
    pairOverlap dateParse entry1 entry2 = pairOverlap dateParse entry2 entry1 := by
  simp only [pairOverlap, timesOverlap_eq]
  exact Bool.and_comm _ _

theorem checkTimeOverlap.inner_of_overlap (dateParse : String → Option ℤ) (entries : List Entry)
    (i : ℕ) (hi : i < entries.length) (j : ℕ) (hj : j < entries.length)
    (h : pairOverlap dateParse entries[i] entries[j] = true) :
    checkTimeOverlap.inner dateParse entries i hi j
      = some { overlap := true, entries := some (entries[i], entries[j]) } := by
  rw [checkTimeOverlap.inner]
  unfold pairOverlap at h
  simp [hj, h]

theorem checkTimeOverlap.inner_of_not_overlap (dateParse : String → Option ℤ)
    (entries : List Entry) (i : ℕ) (hi : i < entries.length) (j : ℕ) (hj : j < entries.length)
    (h : pairOverlap dateParse entries[i] entries[j] = false) :
    checkTimeOverlap.inner dateParse entries i hi j
      = checkTimeOverlap.inner dateParse entries i hi (j + 1) := by
  rw [checkTimeOverlap.inner]
  unfold pairOverlap at h
  simp [hj, h]

theorem checkTimeOverlap.inner_of_ge (dateParse : String → Option ℤ) (entries : List Entry)
    (i : ℕ) (hi : i < entries.length) (j : ℕ) (hj : ¬ j < entries.length) :
    checkTimeOverlap.inner dateParse entries i hi j = none := by
  rw [checkTimeOverlap.inner]
  simp [hj]

/-- The inner loop entered at `j` either runs to its end, no entry from `j` on overlapping
entry `i`, or returns entry `i` with the first entry from `j` on that overlaps it. -/
theorem checkTimeOverlap.inner_spec (dateParse : String → Option ℤ) (entries : List Entry)
    (i : ℕ) (hi : i < entries.length) (j : ℕ) :
    (checkTimeOverlap.inner dateParse entries i hi j = none ∧
      ∀ (k : ℕ) (hk : k < entries.length), j ≤ k →
        pairOverlap dateParse entries[i] entries[k] = false) ∨
    (∃ (k : ℕ) (hk : k < entries.length), j ≤ k ∧
      pairOverlap dateParse entries[i] entries[k] = true ∧
      (∀ (k' : ℕ) (hk' : k' < entries.length), j ≤ k' → k' < k →
        pairOverlap dateParse entries[i] entries[k'] = false) ∧
      checkTimeOverlap.inner dateParse entries i hi j
        = some { overlap := true, entries := some (entries[i], entries[k]) }) := by
  induction j using checkTimeOverlap.inner.induct dateParse entries i hi with
  | case1 x hx entry1 entry2 hov =>
    right
    refine ⟨x, hx, le_refl x, hov, ?_, ?_⟩
    · intro k' _ h1 h2
      omega
    · exact checkTimeOverlap.inner_of_overlap dateParse entries i hi x hx hov
  | case2 x hx entry1 entry2 hov ih =>
    have hno : pairOverlap dateParse entries[i] entries[x] = false := by
      simpa [pairOverlap, entry1, entry2] using hov
    have hstep := checkTimeOverlap.inner_of_not_overlap dateParse entries i hi x hx hno
    rcases ih with ⟨hnone, hall⟩ | ⟨k, hk, hle, hk1, hmin, hres⟩
    · left
      refine ⟨by rw [hstep, hnone], ?_⟩
      intro k hk hxk
      rcases Nat.eq_or_lt_of_le hxk with h | h
      · subst h; exact hno
      · exact hall k hk h
    · right
      refine ⟨k, hk, by omega, hk1, ?_, by rw [hstep, hres]⟩
      intro k' hk' h1 h2
      rcases Nat.eq_or_lt_of_le h1 with h | h
      · subst h; exact hno
      · exact hmin k' hk' h h2
  | case3 x hx =>
    left
    refine ⟨checkTimeOverlap.inner_of_ge dateParse entries i hi x hx, ?_⟩
    intro k hk hxk
    omega

theorem checkTimeOverlap.outer_of_some (dateParse : String → Option ℤ) (entries : List Entry)
    (i : ℕ) (hi : i < entries.length) (result : OverlapResult)
    (h : checkTimeOverlap.inner dateParse entries i hi (i + 1) = some result) :
    checkTimeOverlap.outer dateParse entries i = result := by
  rw [checkTimeOverlap.outer]
  simp [hi, h]

theorem checkTimeOverlap.outer_of_none (dateParse : String → Option ℤ) (entries : List Entry)
    (i : ℕ) (hi : i < entries.length)
    (h : checkTimeOverlap.inner dateParse entries i hi (i + 1) = none) :
    checkTimeOverlap.outer dateParse entries i
      = checkTimeOverlap.outer dateParse entries (i + 1) := by
  rw [checkTimeOverlap.outer]
  simp [hi, h]

theorem checkTimeOverlap.outer_of_ge (dateParse : String → Option ℤ) (entries : List Entry)
    (i : ℕ) (hi : ¬ i < entries.length) :
    checkTimeOverlap.outer dateParse entries i = { overlap := false, entries := none } := by
  rw [checkTimeOverlap.outer]
  simp [hi]

/-- The outer loop entered at `i` either finds no overlapping pair `(a, b)`, `i <= a < b`,
and returns `{ overlap: false }`, or returns the first overlapping pair in the order
`a` ascending, then `b` ascending. -/
theorem checkTimeOverlap.outer_spec (dateParse : String → Option ℤ) (entries : List Entry)
    (i : ℕ) :
    (checkTimeOverlap.outer dateParse entries i = { overlap := false, entries := none } ∧
      ∀ (a b : ℕ) (ha : a < entries.length) (hb : b < entries.length), i ≤ a → a < b →
        pairOverlap dateParse entries[a] entries[b] = false) ∨
    (∃ (a b : ℕ) (ha : a < entries.length) (hb : b < entries.length), i ≤ a ∧ a < b ∧
      pairOverlap dateParse entries[a] entries[b] = true ∧
      (∀ (a' b' : ℕ) (ha' : a' < entries.length) (hb' : b' < entries.length),
        i ≤ a' → a' < b' → (a' < a ∨ (a' = a ∧ b' < b)) →
        pairOverlap dateParse entries[a'] entries[b'] = false) ∧
      checkTimeOverlap.outer dateParse entries i
        = { overlap := true, entries := some (entries[a], entries[b]) }) := by
  induction i using checkTimeOverlap.outer.induct dateParse entries with
  | case1 x hx result hres =>
    right
    rcases checkTimeOverlap.inner_spec dateParse entries x hx (x + 1) with
      ⟨hnone, _⟩ | ⟨k, hk, hle, hk1, hmin, hsome⟩
    · rw [hnone] at hres; cases hres
    · refine ⟨x, k, hx, hk, le_refl x, by omega, hk1, ?_, ?_⟩
      · intro a' b' ha' hb' h1 h2 h3
        rcases h3 with h3 | ⟨h3, h4⟩
        · omega
        · subst h3
          exact hmin b' hb' (by omega) h4
      · rw [checkTimeOverlap.outer_of_some dateParse entries x hx _ hsome]
  | case2 x hx hnone ih =>
    have hstep := checkTimeOverlap.outer_of_none dateParse entries x hx hnone
    have hrow : ∀ (k : ℕ) (hk : k < entries.length), x + 1 ≤ k →
        pairOverlap dateParse entries[x] entries[k] = false := by
      rcases checkTimeOverlap.inner_spec dateParse entries x hx (x + 1) with
        ⟨_, hall⟩ | ⟨k, hk, hle, hk1, hmin, hsome⟩
      · exact hall
      · rw [hnone] at hsome; cases hsome
    rcases ih with ⟨hfalse, hall⟩ | ⟨a, b, ha, hb, hle, hlt, hab, hmin, hres⟩
    · left
      refine ⟨by rw [hstep, hfalse], ?_⟩
      intro a b ha hb h1 h2
      rcases Nat.eq_or_lt_of_le h1 with h | h
      · subst h; exact hrow b hb (by omega)
      · exact hall a b ha hb h h2
    · right
      refine ⟨a, b, ha, hb, by omega, hlt, hab, ?_, by rw [hstep, hres]⟩
      intro a' b' ha' hb' h1 h2 h3
      rcases Nat.eq_or_lt_of_le h1 with h | h
      · subst h; exact hrow b' hb' (by omega)
      · exact hmin a' b' ha' hb' h h2 h3
  | case3 x hx =>
    left
    refine ⟨checkTimeOverlap.outer_of_ge dateParse entries x hx, ?_⟩
    intro a b ha hb h1 h2
    omega

/-- The result of `checkTimeOverlap`: `{ overlap: false }` when no pair `(a, b)`, `a < b`,
overlaps, and else the first overlapping pair in the order of the two loops. -/
theorem checkTimeOverlap_spec (dateParse : String → Option ℤ) (entries : List Entry) :
    (checkTimeOverlap dateParse entries = { overlap := false, entries := none } ∧
      ∀ (a b : ℕ) (ha : a < entries.length) (hb : b < entries.length), a < b →
        pairOverlap dateParse entries[a] entries[b] = false) ∨
    (∃ (a b : ℕ) (ha : a < entries.length) (hb : b < entries.length), a < b ∧
      pairOverlap dateParse entries[a] entries[b] = true ∧
      (∀ (a' b' : ℕ) (ha' : a' < entries.length) (hb' : b' < entries.length),
        a' < b' → (a' < a ∨ (a' = a ∧ b' < b)) →
        pairOverlap dateParse entries[a'] entries[b'] = false) ∧
      checkTimeOverlap dateParse entries
        = { overlap := true, entries := some (entries[a], entries[b]) }) := by
  unfold checkTimeOverlap
  rcases checkTimeOverlap.outer_spec dateParse entries 0 with
    ⟨hres, hall⟩ | ⟨a, b, ha, hb, _, hlt, hab, hmin, hres⟩
  · exact Or.inl ⟨hres, fun a b ha hb h => hall a b ha hb (Nat.zero_le a) h⟩
  · exact Or.inr ⟨a, b, ha, hb, hlt, hab,
      fun a' b' ha' hb' h1 h2 => hmin a' b' ha' hb' (Nat.zero_le a') h1 h2, hres⟩

theorem checkTimeOverlap_reports_iff_lt (dateParse : String → Option ℤ)
    (entries : List Entry) :
    (checkTimeOverlap dateParse entries).overlap = true ↔
      ∃ (i j : ℕ) (hi : i < entries.length) (hj : j < entries.length), i < j ∧
        pairOverlap dateParse entries[i] entries[j] = true := by
  rcases checkTimeOverlap_spec dateParse entries with
    ⟨hres, hall⟩ | ⟨a, b, ha, hb, hlt, hab, _, hres⟩
  · constructor
    · intro h
      rw [hres] at h
      cases h
    · rintro ⟨i, j, hi, hj, hij, hov⟩
      rw [hall i j hi hj hij] at hov
      cases hov
  · constructor
    · intro _
      exact ⟨a, b, ha, hb, hlt, hab⟩
    · intro _
      rw [hres]

theorem checkTimeOverlap_of_no_pair (dateParse : String → Option ℤ) (entries : List Entry)
    (h : ∀ (i j : ℕ) (hi : i < entries.length) (hj : j < entries.length), i < j →
      pairOverlap dateParse entries[i] entries[j] = false) :
    checkTimeOverlap dateParse entries = { overlap := false, entries := none } := by
  rcases checkTimeOverlap_spec dateParse entries with
    ⟨hres, _⟩ | ⟨a, b, ha, hb, hlt, hab, _, _⟩
  · exact hres
  · rw [h a b ha hb hlt] at hab
    cases hab

/-- C5. For four parseable times, `timesOverlap(s1, e1, s2, e2)` is true if and only if
`s1 < e2` and `s2 < e1` on their time values, both comparisons strict. -/
theorem timesOverlap_iff (dateParse : String → Option ℤ) (start1 end1 start2 end2 : String)
    (s1 e1 s2 e2 : ℤ)
    (hs1 : timeValue dateParse start1 = some s1) (he1 : timeValue dateParse end1 = some e1)
    (hs2 : timeValue dateParse start2 = some s2) (he2 : timeValue dateParse end2 = some e2) :
    timesOverlap dateParse start1 end1 start2 end2 = true ↔ s1 < e2 ∧ s2 < e1 := by
  rw [timesOverlap_eq, hs1, he1, hs2, he2]
  simp [dateLt]

/-- An instance of C5: 09:00-12:00 and 11:00-13:00 overlap. -/
theorem timesOverlap_iff_witness :
    timeValue refDateParse "09:00" = some 946717200000 ∧
    timeValue refDateParse "12:00" = some 946728000000 ∧
    timeValue refDateParse "11:00" = some 946724400000 ∧
    timeValue refDateParse "13:00" = some 946731600000 ∧
    timesOverlap refDateParse "09:00" "12:00" "11:00" "13:00" = true :=
  ⟨by decide, by decide, by decide, by decide,
   (timesOverlap_iff refDateParse "09:00" "12:00" "11:00" "13:00"
      946717200000 946728000000 946724400000 946731600000
      (by decide) (by decide) (by decide) (by decide)).mpr ⟨by decide, by decide⟩⟩

/-- C6. Two intervals that touch at an endpoint do not overlap: for all time texts `a`, `b`,
`c`, `timesOverlap(a, b, b, c)` and `timesOverlap(b, c, a, b)` are false, and
`checkTimeOverlap` on the two entries `(a, b)`, `(b, c)` returns `{ overlap: false }`. -/
theorem timesOverlap_touching (dateParse : String → Option ℤ) (a b c : String) :
    timesOverlap dateParse a b b c = false ∧
      timesOverlap dateParse b c a b = false ∧
      checkTimeOverlap dateParse [⟨a, b⟩, ⟨b, c⟩] = { overlap := false, entries := none } := by
  have h1 : timesOverlap dateParse a b b c = false := by
    rw [timesOverlap_eq, dateLt_irrefl]
    simp
  have h2 : timesOverlap dateParse b c a b = false := by
    rw [timesOverlap_eq, dateLt_irrefl]
    simp
  refine ⟨h1, h2, ?_⟩
  apply checkTimeOverlap_of_no_pair
  intro i j hi hj hij
  simp only [List.length_cons, List.length_nil] at hi hj
  have hi0 : i = 0 := by omega
  have hj1 : j = 1 := by omega
  subst hi0 hj1
  exact h1

/-- The example of C6: 09:00-12:00 and 12:00-13:00 do not overlap. -/
theorem timesOverlap_touching_witness :
    checkTimeOverlap refDateParse [⟨"09:00", "12:00"⟩, ⟨"12:00", "13:00"⟩]
      = { overlap := false, entries := none } :=
  (timesOverlap_touching refDateParse "09:00" "12:00" "13:00").2.2

/-- C7. For every list of entries, `checkTimeOverlap` returns `overlap = true` if and only
if there are two distinct indices `i`, `j` whose entries overlap under `timesOverlap`
(`pairOverlap` is `timesOverlap` on their `start` and `end`); when there is no such pair it
returns `{ overlap: false }`, which carries no pair. -/
theorem checkTimeOverlap_overlap_iff (dateParse : String → Option ℤ) (entries : List Entry) :
    ((checkTimeOverlap dateParse entries).overlap = true ↔
        ∃ (i j : ℕ) (hi : i < entries.length) (hj : j < entries.length), i ≠ j ∧
          pairOverlap dateParse entries[i] entries[j] = true) ∧
      ((¬ ∃ (i j : ℕ) (hi : i < entries.length) (hj : j < entries.length), i ≠ j ∧
          pairOverlap dateParse entries[i] entries[j] = true) →
        checkTimeOverlap dateParse entries = { overlap := false, entries := none }) := by
  constructor
  · rw [checkTimeOverlap_reports_iff_lt]
    constructor
    · rintro ⟨i, j, hi, hj, hij, hov⟩
      exact ⟨i, j, hi, hj, Nat.ne_of_lt hij, hov⟩
    · rintro ⟨i, j, hi, hj, hij, hov⟩
      rcases Nat.lt_or_gt_of_ne hij with h | h
      · exact ⟨i, j, hi, hj, h, hov⟩
      · exact ⟨j, i, hj, hi, h, by rw [pairOverlap_comm]; exact hov⟩
  · intro hno
    apply checkTimeOverlap_of_no_pair
    intro i j hi hj hij
    by_contra hov
    exact hno ⟨i, j, hi, hj, Nat.ne_of_lt hij, by simpa using hov⟩

/-- The example of C7: among 09:00-12:00 and 11:00-13:00 an overlap is reported. -/
theorem checkTimeOverlap_overlap_iff_witness :
    (checkTimeOverlap refDateParse
      [⟨"09:00", "12:00"⟩, ⟨"11:00", "13:00"⟩]).overlap = true :=
  (checkTimeOverlap_overlap_iff refDateParse [⟨"09:00", "12:00"⟩, ⟨"11:00", "13:00"⟩]).1.mpr
    ⟨0, 1, by decide, by decide, by decide, by decide⟩

/-- C8. Whenever `checkTimeOverlap` reports an overlap, the pair it returns is
`[entries[i], entries[j]]` for indices `i < j` whose entries overlap, and no pair
`(i', j')`, `i' < j'`, that comes before `(i, j)` in the order "`i` ascending, then `j`
ascending" overlaps. -/
theorem checkTimeOverlap_first_pair (dateParse : String → Option ℤ) (entries : List Entry)
    (h : (checkTimeOverlap dateParse entries).overlap = true) :
    ∃ (i j : ℕ) (hi : i < entries.length) (hj : j < entries.length), i < j ∧
      (checkTimeOverlap dateParse entries).entries = some (entries[i], entries[j]) ∧
      pairOverlap dateParse entries[i] entries[j] = true ∧
      ∀ (i' j' : ℕ) (hi' : i' < entries.length) (hj' : j' < entries.length),
        i' < j' → (i' < i ∨ (i' = i ∧ j' < j)) →
        pairOverlap dateParse entries[i'] entries[j'] = false := by
  rcases checkTimeOverlap_spec dateParse entries with
    ⟨hres, _⟩ | ⟨a, b, ha, hb, hlt, hab, hmin, hres⟩
  · rw [hres] at h
    cases h
  · exact ⟨a, b, ha, hb, hlt, by rw [hres], hab, hmin⟩

/-- The example of C8: among A = 08:00-09:00, B = 09:00-12:00, C = 11:00-13:00 only B and C
overlap, and the pair returned is `[B, C]`. -/
theorem checkTimeOverlap_first_pair_witness :
    (checkTimeOverlap refDateParse
      [⟨"08:00", "09:00"⟩, ⟨"09:00", "12:00"⟩, ⟨"11:00", "13:00"⟩]).overlap = true ∧
    (checkTimeOverlap refDateParse
      [⟨"08:00", "09:00"⟩, ⟨"09:00", "12:00"⟩, ⟨"11:00", "13:00"⟩]).entries
      = some (⟨"09:00", "12:00"⟩, ⟨"11:00", "13:00"⟩) := by
  have hov : (checkTimeOverlap refDateParse
      [⟨"08:00", "09:00"⟩, ⟨"09:00", "12:00"⟩, ⟨"11:00", "13:00"⟩]).overlap = true :=
    (checkTimeOverlap_reports_iff_lt refDateParse _).mpr
      ⟨1, 2, by decide, by decide, by decide, by decide⟩
  refine ⟨hov, ?_⟩
  obtain ⟨i, j, hi, hj, hij, hres, hpair, _⟩ :=
    checkTimeOverlap_first_pair refDateParse
      [⟨"08:00", "09:00"⟩, ⟨"09:00", "12:00"⟩, ⟨"11:00", "13:00"⟩] hov
  have hAB : pairOverlap refDateParse ⟨"08:00", "09:00"⟩ ⟨"09:00", "12:00"⟩ = false := by
    decide
  have hAC : pairOverlap refDateParse ⟨"08:00", "09:00"⟩ ⟨"11:00", "13:00"⟩ = false := by
    decide
  simp only [List.length_cons, List.length_nil] at hi hj
  have hcases : (i = 0 ∧ j = 1) ∨ (i = 0 ∧ j = 2) ∨ (i = 1 ∧ j = 2) := by omega
  rcases hcases with ⟨h1, h2⟩ | ⟨h1, h2⟩ | ⟨h1, h2⟩ <;> subst h1 h2
  · rw [show pairOverlap refDateParse
        ([⟨"08:00", "09:00"⟩, ⟨"09:00", "12:00"⟩, ⟨"11:00", "13:00"⟩] : List Entry)[0]
        ([⟨"08:00", "09:00"⟩, ⟨"09:00", "12:00"⟩, ⟨"11:00", "13:00"⟩] : List Entry)[1]
        = false from hAB] at hpair
    cases hpair
  · rw [show pairOverlap refDateParse
        ([⟨"08:00", "09:00"⟩, ⟨"09:00", "12:00"⟩, ⟨"11:00", "13:00"⟩] : List Entry)[0]
        ([⟨"08:00", "09:00"⟩, ⟨"09:00", "12:00"⟩, ⟨"11:00", "13:00"⟩] : List Entry)[2]
        = false from hAC] at hpair
    cases hpair
  · exact hres

/-! ## Properties of `formatHours` -/

theorem Binary64.one_le_maxValue : (1 : ℚ) ≤ Binary64.maxValue := by
  unfold Binary64.maxValue
  norm_num

/-- The fractional part `hours - Math.floor(hours)` as the code computes it: the rounding
moves it by `2^-54` at most and keeps it between 0 and 1. -/
theorem Binary64.nearest_fract (q : ℚ) :
    0 ≤ Binary64.nearest (Int.fract q) ∧ Binary64.nearest (Int.fract q) ≤ 1 ∧
    |Binary64.nearest (Int.fract q) - Int.fract q| ≤ (2 : ℚ) ^ (-54 : ℤ) := by
  have h0 := Int.fract_nonneg q
  have h1 := Int.fract_lt_one q
  have habs : |Int.fract q| < (2 : ℚ) ^ ((-1 : ℤ) + 1) := by
    rw [abs_of_nonneg h0]
    norm_num
    exact h1
  have he := Binary64.exponent_le_of_abs_lt (Int.fract q) (-1) (by norm_num) habs
  refine ⟨Binary64.nearest_nonneg _ h0, ?_, ?_⟩
  · have := Binary64.nearest_le_of_le_zpow (Int.fract q) 1 0 (by omega) (by norm_num; linarith)
    simpa using this
  · have hu := Binary64.ulp_le_of_abs_lt (Int.fract q) (-1) (by norm_num) habs
    have hn := Binary64.abs_nearest_sub_le (Int.fract q)
    have h54 : (2 : ℚ) ^ ((-1 : ℤ) - 52) / 2 = (2 : ℚ) ^ (-54 : ℤ) := by norm_num
    calc |Binary64.nearest (Int.fract q) - Int.fract q|
        ≤ Binary64.ulp (Int.fract q) / 2 := hn
      _ ≤ (2 : ℚ) ^ ((-1 : ℤ) - 52) / 2 := div_le_div_of_nonneg_right hu (by norm_num)
      _ = (2 : ℚ) ^ (-54 : ℤ) := h54

/-- The product `x * 60` as the code computes it, for `x` between 0 and 1: the rounding
moves it by `2^-48` at most and keeps it between 0 and 60. -/
theorem Binary64.nearest_mul_sixty (a : ℚ) (h0 : 0 ≤ a) (h1 : a ≤ 1) :
    0 ≤ Binary64.nearest (a * 60) ∧ Binary64.nearest (a * 60) ≤ 60 ∧
    |Binary64.nearest (a * 60) - a * 60| ≤ (2 : ℚ) ^ (-48 : ℤ) := by
  have hx0 : 0 ≤ a * 60 := by positivity
  have hx1 : a * 60 ≤ 60 := by linarith
  have habs : |a * 60| < (2 : ℚ) ^ ((5 : ℤ) + 1) := by
    rw [abs_of_nonneg hx0]
    norm_num
    linarith
  have he := Binary64.exponent_le_of_abs_lt (a * 60) 5 (by norm_num) habs
  refine ⟨Binary64.nearest_nonneg _ hx0, ?_, ?_⟩
  · have := Binary64.nearest_le_of_le_zpow (a * 60) 60 0 (by omega) (by norm_num; linarith)
    simpa using this
  · have hu := Binary64.ulp_le_of_abs_lt (a * 60) 5 (by norm_num) habs
    have hn := Binary64.abs_nearest_sub_le (a * 60)
    have h48 : (2 : ℚ) ^ ((5 : ℤ) - 52) / 2 = (2 : ℚ) ^ (-48 : ℤ) := by norm_num
    calc |Binary64.nearest (a * 60) - a * 60|
        ≤ Binary64.ulp (a * 60) / 2 := hn
      _ ≤ (2 : ℚ) ^ ((5 : ℤ) - 52) / 2 := div_le_div_of_nonneg_right hu (by norm_num)
      _ = (2 : ℚ) ^ (-48 : ℤ) := h48

/-- The minutes before `Math.round`: the fractional part of the hours and its product with
60 are each rounded to binary64. -/
theorem Binary64.mulLit_sub_floor (q : ℚ) :
    Binary64.mulLit (Binary64.sub (JSNum.fin q) (JSNum.fin ((⌊q⌋ : ℤ) : ℚ))) 60
      = JSNum.fin (Binary64.nearest (Binary64.nearest (Int.fract q) * 60)) := by
  obtain ⟨ha0, ha1, -⟩ := Binary64.nearest_fract q
  obtain ⟨hp0, hp1, -⟩ := Binary64.nearest_mul_sixty _ ha0 ha1
  have hm := Binary64.one_le_maxValue
  have hq : q - ((⌊q⌋ : ℤ) : ℚ) = Int.fract q := rfl
  have hr1 : Binary64.round (Int.fract q) = JSNum.fin (Binary64.nearest (Int.fract q)) := by
    apply Binary64.round_of_abs_le
    rw [abs_of_nonneg ha0]
    linarith
  have hr2 : Binary64.round (Binary64.nearest (Int.fract q) * 60)
      = JSNum.fin (Binary64.nearest (Binary64.nearest (Int.fract q) * 60)) := by
    apply Binary64.round_of_abs_le
    rw [abs_of_nonneg hp0]
    unfold Binary64.maxValue
    norm_num
    linarith
  simp only [Binary64.sub, hq, hr1, Binary64.mulLit, hr2]

theorem formatHours_fin (q : ℚ) :
    formatHours (JSNum.fin q)
      = numberToString (JSIntegral.int ⌊q⌋) ++ "h " ++
          numberToString (JSIntegral.int
            ⌊Binary64.nearest (Binary64.nearest (Int.fract q) * 60) + 1 / 2⌋) ++ "m" := by
  simp only [formatHours, mathFloor, JSIntegral.toNum, Binary64.mulLit_sub_floor, mathRound]

theorem formatTime_eq_formatHours (hours : JSNum) : formatTime hours = formatHours hours := rfl

/-- For the hours `Infinity` the difference `hours - Math.floor(hours)` is `NaN`, and so is
the minute part. -/
theorem formatHours_posInf : formatHours JSNum.posInf = "Infinityh NaNm" := by decide

/-- The minutes before `Math.round` are within `2^-47` of `(hours - floor(hours)) * 60`. -/
theorem Binary64.abs_minutes_sub_le (q : ℚ) :
    0 ≤ Binary64.nearest (Binary64.nearest (Int.fract q) * 60) ∧
    Binary64.nearest (Binary64.nearest (Int.fract q) * 60) ≤ 60 ∧
    |Binary64.nearest (Binary64.nearest (Int.fract q) * 60) - Int.fract q * 60|
      ≤ (2 : ℚ) ^ (-47 : ℤ) := by
  obtain ⟨ha0, ha1, ha⟩ := Binary64.nearest_fract q
  obtain ⟨hp0, hp1, hp⟩ := Binary64.nearest_mul_sixty _ ha0 ha1
  refine ⟨hp0, hp1, ?_⟩
  rw [abs_le] at ha hp ⊢
  have h54 : (2 : ℚ) ^ (-54 : ℤ) = 1 / 18014398509481984 := by norm_num
  have h48 : (2 : ℚ) ^ (-48 : ℤ) = 1 / 281474976710656 := by norm_num
  have h47 : (2 : ℚ) ^ (-47 : ℤ) = 1 / 140737488355328 := by norm_num
  rw [h54] at ha
  rw [h48] at hp
  rw [h47]
  constructor <;> linarith [ha.1, ha.2, hp.1, hp.2]

/-- C10. `formatHours` does not carry a minute part of 60 into the hours: for every
non-negative number of hours whose fractional part times 60 is at least 59.5, the output is
`"{floor(hours)}h 60m"`, the hour part being the floor of the hours, not one more. -/
theorem formatHours_rollover (hours : ℚ) (h0 : 0 ≤ hours)
    (hfrac : (59.5 : ℚ) ≤ Int.fract hours * 60) :
    formatHours (JSNum.fin hours) = numberToString (JSIntegral.int ⌊hours⌋) ++ "h 60m" := by
  have _ := h0
  obtain ⟨ha0, ha1, ha⟩ := Binary64.nearest_fract hours
  obtain ⟨hp0, hp1, -⟩ := Binary64.nearest_mul_sixty _ ha0 ha1
  rw [abs_le] at ha
  have h54 : (2 : ℚ) ^ (-54 : ℤ) = 1 / 18014398509481984 := by norm_num
  rw [h54] at ha
  have hx1 : (59.5 : ℚ) - 1 / 281474976710656 < Binary64.nearest (Int.fract hours) * 60 := by
    norm_num at hfrac ⊢
    linarith [ha.1]
  have hx2 : Binary64.nearest (Int.fract hours) * 60 ≤ 60 := by linarith
  have hexp : Binary64.exponent (Binary64.nearest (Int.fract hours) * 60) = 5 := by
    apply Binary64.exponent_eq _ 5 (by norm_num)
    · rw [abs_of_nonneg (by positivity)]
      norm_num at hx1 ⊢
      linarith
    · rw [abs_of_nonneg (by positivity)]
      norm_num
      linarith
  have hulp := Binary64.ulp_eq_of_exponent _ 5 hexp
  have h47 : (2 : ℚ) ^ ((5 : ℤ) - 52) = 1 / 140737488355328 := by norm_num
  rw [h47] at hulp
  have hlow : (59.5 : ℚ) ≤ Binary64.nearest (Binary64.nearest (Int.fract hours) * 60) := by
    apply Binary64.le_nearest_of_sub_lt _ _ 8373880557142016
    · rw [hulp]; norm_num
    · rw [hulp]
      norm_num at hx1 ⊢
      linarith
  have h60 : ⌊Binary64.nearest (Binary64.nearest (Int.fract hours) * 60) + 1 / 2⌋ = 60 := by
    rw [Int.floor_eq_iff]
    norm_num at hlow ⊢
    constructor <;> linarith
  have h60s : numberToString (JSIntegral.int 60) = "60" := by decide
  rw [formatHours_fin, h60, h60s, String.append_assoc, String.append_assoc]
  rfl

/-- The example of C10: `formatHours(1.999)` is `"1h 60m"`. -/
theorem formatHours_rollover_witness :
    (0 : ℚ) ≤ 1.999 ∧ (59.5 : ℚ) ≤ Int.fract (1.999 : ℚ) * 60 ∧
    formatHours (JSNum.fin 1.999) = "1h 60m" := by
  have hfl : ⌊(1.999 : ℚ)⌋ = 1 := by
    rw [Int.floor_eq_iff]
    norm_num
  have hfr : (59.5 : ℚ) ≤ Int.fract (1.999 : ℚ) * 60 := by
    unfold Int.fract
    rw [hfl]
    norm_num
  refine ⟨by norm_num, hfr, ?_⟩
  rw [formatHours_rollover 1.999 (by norm_num) hfr, hfl]
  decide

/-- For non-negative hours both numbers `formatHours` prints are natural numbers: the hour
part `H` is the floor of the hours and the minute part `M` is `floor(p + 1/2)` for the
product `p` of the code, `(hours - H) * 60` with the difference and the product each
rounded to binary64. -/
theorem formatHours_parts (hours : ℚ) (h0 : 0 ≤ hours) :
    ∃ (H M : ℕ) (p : ℚ), ⌊hours⌋ = (H : ℤ) ∧ ⌊p + 1 / 2⌋ = (M : ℤ) ∧
      Binary64.mulLit (Binary64.sub (JSNum.fin hours) (JSNum.fin (H : ℚ))) 60 = JSNum.fin p ∧
      0 ≤ p ∧ p ≤ 60 ∧ |p - (hours - (H : ℚ)) * 60| ≤ (2 : ℚ) ^ (-47 : ℤ) ∧
      formatHours (JSNum.fin hours)
        = numberToString (JSIntegral.int (H : ℤ)) ++ "h " ++
            numberToString (JSIntegral.int (M : ℤ)) ++ "m" := by
  obtain ⟨H, hH⟩ : ∃ H : ℕ, ⌊hours⌋ = (H : ℤ) :=
    ⟨⌊hours⌋.toNat, (Int.toNat_of_nonneg (Int.floor_nonneg.mpr h0)).symm⟩
  have hHq : ((⌊hours⌋ : ℤ) : ℚ) = (H : ℚ) := by rw [hH]; simp
  have hfr : Int.fract hours = hours - (H : ℚ) := by
    unfold Int.fract
    rw [hHq]
  obtain ⟨hp0, hp60, hp⟩ := Binary64.abs_minutes_sub_le hours
  have hM0 : 0 ≤ ⌊Binary64.nearest (Binary64.nearest (Int.fract hours) * 60) + 1 / 2⌋ := by
    apply Int.floor_nonneg.mpr
    positivity
  obtain ⟨M, hM⟩ : ∃ M : ℕ,
      ⌊Binary64.nearest (Binary64.nearest (Int.fract hours) * 60) + 1 / 2⌋ = (M : ℤ) :=
    ⟨_, (Int.toNat_of_nonneg hM0).symm⟩
  refine ⟨H, M, _, hH, hM, ?_, hp0, hp60, ?_, ?_⟩
  · rw [← hHq]
    exact Binary64.mulLit_sub_floor hours
  · rw [← hfr]
    exact hp
  · rw [formatHours_fin, hM, hH]

/-- The double `0.008333333333333333`, a little less than half a minute, is printed as one
minute: the product with 60 is rounded to `0.5`. -/
theorem formatHours_below_half_minute :
    formatHours (JSNum.fin (4803839602528529 / 576460752303423488)) = "0h 1m" := by
  have hfl : ⌊(4803839602528529 / 576460752303423488 : ℚ)⌋ = 0 := by
    rw [Int.floor_eq_iff]
    norm_num
  have hfr : Int.fract (4803839602528529 / 576460752303423488 : ℚ)
      = 4803839602528529 / 576460752303423488 := by
    unfold Int.fract
    rw [hfl]
    norm_num
  have ha : Binary64.nearest (4803839602528529 / 576460752303423488 : ℚ)
      = 4803839602528529 / 576460752303423488 :=
    Binary64.nearest_eq_self_of _ (-7) 4803839602528529 (by norm_num)
      (by norm_num [abs_of_pos]) (by norm_num [abs_of_pos]) (by norm_num)
  have hp : Binary64.nearest ((4803839602528529 / 576460752303423488 : ℚ) * 60) = 1 / 2 := by
    have := Binary64.nearest_eq_of ((4803839602528529 / 576460752303423488 : ℚ) * 60) (-2)
      9007199254740992 (by norm_num) (by norm_num [abs_of_pos]) (by norm_num [abs_of_pos])
      (by norm_num [abs_lt])
    rw [this]
    norm_num
  have hround : ⌊(1 / 2 : ℚ) + 1 / 2⌋ = 1 := by norm_num
  rw [formatHours_fin, hfr, ha, hp, hround, hfl]
  decide

/-- The double `8.508333333333333`, a little less than 8 hours 30.5 minutes, is printed as
8 hours 30 minutes: the fractional part and its product with 60 are exact. -/
theorem formatHours_below_half_past :
    formatHours (JSNum.fin (1197441463423249 / 140737488355328)) = "8h 30m" := by
  have hfl : ⌊(1197441463423249 / 140737488355328 : ℚ)⌋ = 8 := by
    rw [Int.floor_eq_iff]
    norm_num
  have hfr : Int.fract (1197441463423249 / 140737488355328 : ℚ)
      = 71541556580625 / 140737488355328 := by
    unfold Int.fract
    rw [hfl]
    norm_num
  have ha : Binary64.nearest (71541556580625 / 140737488355328 : ℚ)
      = 71541556580625 / 140737488355328 :=
    Binary64.nearest_eq_self_of _ (-1) 4578659621160000 (by norm_num)
      (by norm_num [abs_of_pos]) (by norm_num [abs_of_pos]) (by norm_num)
  have hp : Binary64.nearest ((71541556580625 / 140737488355328 : ℚ) * 60)
      = (71541556580625 / 140737488355328 : ℚ) * 60 :=
    Binary64.nearest_eq_self_of _ 4 8584986789675000 (by norm_num)
      (by norm_num [abs_of_pos]) (by norm_num [abs_of_pos]) (by norm_num)
  have hround : ⌊(71541556580625 / 140737488355328 : ℚ) * 60 + 1 / 2⌋ = 30 := by
    rw [Int.floor_eq_iff]
    norm_num
  rw [formatHours_fin, hfr, ha, hp, hround, hfl]
  decide

theorem Binary64.roundHalfEven_tie_odd (n : ℤ) (hodd : n % 2 = 1) :
    Binary64.roundHalfEven ((n : ℚ) + 1 / 2) = n + 1 := by
  have hfl : ⌊(n : ℚ) + 1 / 2⌋ = n := by
    rw [Int.floor_eq_iff]
    constructor <;> linarith
  unfold Binary64.roundHalfEven
  rw [hfl]
  have h1 : ¬ ((n : ℚ) + 1 / 2 - (n : ℚ) < 1 / 2) := by norm_num
  have h2 : ¬ ((1 : ℚ) / 2 < (n : ℚ) + 1 / 2 - (n : ℚ)) := by norm_num
  have h3 : ¬ (n % 2 = 0) := by omega
  rw [if_neg h1, if_neg h2, if_neg h3]

/-- The product `8.508333333333333 * 60` of JavaScript is `510.5`: the exact product is
halfway between two binary64 values and goes to the even one. -/
theorem Binary64.mulLit_below_half_past :
    Binary64.mulLit (JSNum.fin (1197441463423249 / 140737488355328)) 60
      = JSNum.fin (1021 / 2) := by
  have hexp : Binary64.exponent ((1197441463423249 / 140737488355328 : ℚ) * 60) = 8 :=
    Binary64.exponent_eq _ 8 (by norm_num) (by norm_num [abs_of_pos])
      (by norm_num [abs_of_pos])
  have hulp := Binary64.ulp_eq_of_exponent _ 8 hexp
  have hy : (1197441463423249 / 140737488355328 : ℚ) * 60 / (2 : ℚ) ^ ((8 : ℤ) - 52)
      = ((8980810975674367 : ℤ) : ℚ) + 1 / 2 := by norm_num
  have hn : Binary64.nearest ((1197441463423249 / 140737488355328 : ℚ) * 60) = 1021 / 2 := by
    unfold Binary64.nearest
    rw [hulp, hy, Binary64.roundHalfEven_tie_odd _ (by norm_num)]
    norm_num
  have hr : Binary64.round ((1197441463423249 / 140737488355328 : ℚ) * 60)
      = JSNum.fin (1021 / 2) := by
    rw [Binary64.round_of_abs_le_maxValue, hn]
    unfold Binary64.maxValue
    norm_num [abs_of_pos]
  simp only [Binary64.mulLit, hr]

/-- C9, as stated, fails: for the double `0.008333333333333333` the product
`(hours - 0) * 60` is less than one half, so that it rounds to 0, and `formatHours` prints
`"0h 1m"`. And for the hours `Infinity`, which has no integer floor, it prints
`"Infinityh NaNm"`. -/
theorem formatHours_rounded_counterexample :
    (0 : ℚ) ≤ 4803839602528529 / 576460752303423488 ∧
    ⌊(4803839602528529 / 576460752303423488 : ℚ)⌋ = 0 ∧
    ((4803839602528529 / 576460752303423488 : ℚ) - 0) * 60 < 1 / 2 ∧
    ⌊((4803839602528529 / 576460752303423488 : ℚ) - 0) * 60 + 1 / 2⌋ = 0 ∧
    formatHours (JSNum.fin (4803839602528529 / 576460752303423488)) = "0h 1m" ∧
    JSNum.le (JSNum.fin 0) JSNum.posInf = true ∧
    formatHours JSNum.posInf = "Infinityh NaNm" := by
  refine ⟨by norm_num, ?_, by norm_num, ?_, formatHours_below_half_minute, rfl,
    formatHours_posInf⟩
  · rw [Int.floor_eq_iff]
    norm_num
  · rw [Int.floor_eq_iff]
    norm_num

/-- C9, amended. For every finite non-negative number of hours, `formatHours` returns the
string `"{H}h {M}m"` in which `H` is the integer floor of the hours (`H <= hours < H + 1`) and `M`
is the product `p` of the code rounded to the nearest integer (`M - 1/2 <= p < M + 1/2`, a
tie going up). The product `p` is `(hours - H) * 60` with the difference and the product
each rounded to binary64; it is within `2^-47` of the exact `(hours - H) * 60`. So `M` is
the exact product rounded to the nearest integer whenever the exact product is at least
`2^-47` away from the halves `k + 1/2`. -/
theorem formatHours_rounded (hours : ℚ) (h0 : 0 ≤ hours) :
    ∃ (H M : ℕ) (p : ℚ),
      formatHours (JSNum.fin hours)
        = numberToString (JSIntegral.int (H : ℤ)) ++ "h " ++
            numberToString (JSIntegral.int (M : ℤ)) ++ "m" ∧
      (H : ℚ) ≤ hours ∧ hours < (H : ℚ) + 1 ∧
      Binary64.mulLit (Binary64.sub (JSNum.fin hours) (JSNum.fin (H : ℚ))) 60 = JSNum.fin p ∧
      |p - (hours - (H : ℚ)) * 60| ≤ (2 : ℚ) ^ (-47 : ℤ) ∧
      (M : ℚ) - 1 / 2 ≤ p ∧ p < (M : ℚ) + 1 / 2 ∧
      ∀ k : ℤ, (k : ℚ) - 1 / 2 + (2 : ℚ) ^ (-47 : ℤ) ≤ (hours - (H : ℚ)) * 60 →
        (hours - (H : ℚ)) * 60 < (k : ℚ) + 1 / 2 - (2 : ℚ) ^ (-47 : ℤ) → (M : ℤ) = k := by
  obtain ⟨H, M, p, hH, hM, hprod, hp0, hp60, hp, hres⟩ := formatHours_parts hours h0
  have hHq : ((⌊hours⌋ : ℤ) : ℚ) = (H : ℚ) := by rw [hH]; simp
  have hMq : ((⌊p + 1 / 2⌋ : ℤ) : ℚ) = (M : ℚ) := by rw [hM]; simp
  have h1 := Int.floor_le hours
  have h2 := Int.lt_floor_add_one hours
  have h3 := Int.floor_le (p + 1 / 2)
  have h4 := Int.lt_floor_add_one (p + 1 / 2)
  rw [hHq] at h1 h2
  rw [hMq] at h3 h4
  refine ⟨H, M, p, hres, h1, h2, hprod, hp, by linarith, by linarith, ?_⟩
  intro k hk1 hk2
  rw [← hM, Int.floor_eq_iff]
  rw [abs_le] at hp
  generalize (2 : ℚ) ^ (-47 : ℤ) = u at hp hk1 hk2
  constructor <;> linarith [hp.1, hp.2]

/-- The examples of C9: 8.5 hours is `"8h 30m"` and 0 hours is `"0h 0m"`. -/
theorem formatHours_rounded_witness :
    (0 : ℚ) ≤ 8.5 ∧ formatHours (JSNum.fin 8.5) = "8h 30m" ∧
    formatHours (JSNum.fin 0) = "0h 0m" := by
  refine ⟨by norm_num, ?_, ?_⟩
  · obtain ⟨H, M, p, hres, h1, h2, -, -, -, -, hk⟩ := formatHours_rounded 8.5 (by norm_num)
    have hH : H = 8 := by
      have ha : (H : ℚ) < 9 := by norm_num at h1; linarith
      have hb : (7 : ℚ) < (H : ℚ) := by norm_num at h2; linarith
      have ha' : H < 9 := by exact_mod_cast ha
      have hb' : 7 < H := by exact_mod_cast hb
      omega
    subst hH
    have hM : (M : ℤ) = 30 := hk 30 (by norm_num) (by norm_num)
    have hM' : M = 30 := by exact_mod_cast hM
    subst hM'
    rw [hres]
    decide
  · obtain ⟨H, M, p, hres, h1, h2, -, -, -, -, hk⟩ := formatHours_rounded 0 (le_refl 0)
    have hH : H = 0 := by
      have ha : (H : ℚ) < 1 := by linarith
      have ha' : H < 1 := by exact_mod_cast ha
      omega
    subst hH
    have hM : (M : ℤ) = 0 := hk 0 (by norm_num) (by norm_num)
    have hM' : M = 0 := by exact_mod_cast hM
    subst hM'
    rw [hres]
    decide


/-! ## Totality -/

theorem calculateTotalHours_finite (dateParse : String → Option ℤ)
    (startTime endTime : Option String) (breakMinutes : Option ℚ)
    (hstart : ParseableOrAbsent dateParse startTime)
    (hend : ParseableOrAbsent dateParse endTime) :
    ∃ q : ℚ, 0 ≤ q ∧
      calculateTotalHours dateParse startTime endTime (breakMinutes.map JSNum.fin)
        = JSNum.fin q := by
  cases startTime with
  | none => exact ⟨0, le_refl 0, calculateTotalHours_of_falsy dateParse none endTime _ (Or.inl rfl)⟩
  | some st =>
    cases endTime with
    | none =>
      exact ⟨0, le_refl 0, calculateTotalHours_of_falsy dateParse (some st) none _ (Or.inr rfl)⟩
    | some en =>
      by_cases hs0 : st = ""
      · exact ⟨0, le_refl 0,
          calculateTotalHours_of_falsy _ _ _ _ (Or.inl (by simp [truthy, hs0]))⟩
      by_cases he0 : en = ""
      · exact ⟨0, le_refl 0,
          calculateTotalHours_of_falsy _ _ _ _ (Or.inr (by simp [truthy, he0]))⟩
      have hs1 : (timeValue dateParse st).isSome = true := by
        rcases hstart with h | h
        · exact absurd h hs0
        · exact h
      have he1 : (timeValue dateParse en).isSome = true := by
        rcases hend with h | h
        · exact absurd h he0
        · exact h
      obtain ⟨s, hs⟩ := Option.isSome_iff_exists.mp hs1
      obtain ⟨e, he⟩ := Option.isSome_iff_exists.mp he1
      rcases le_or_lt e s with hle | hlt
      · exact ⟨0, le_refl 0, calculateTotalHours_of_le dateParse st en _ s e hs he hle⟩
      · refine ⟨max 0 (((e - s : ℤ) : ℚ) / 3600000 - (breakMinutes.getD 0) / 60),
          le_max_left _ _, ?_⟩
        rw [calculateTotalHours_of_lt dateParse st en _ s e hs0 he0 hs he hlt]
        cases breakMinutes <;> simp [JSNum.divLit, JSNum.sub, JSNum.mathMax]

theorem checkTimeOverlap.innerRun_of_overlap (dateParse : String → Option ℤ)
    (entries : List Entry) (i j : ℕ) (reads : List ℕ) (hi : i < entries.length)
    (hj : j < entries.length) (h : pairOverlap dateParse entries[i] entries[j] = true) :
    checkTimeOverlap.innerRun dateParse entries i j reads
      = (j :: i :: reads,
          Except.ok (some { overlap := true, entries := some (entries[i], entries[j]) })) := by
  rw [checkTimeOverlap.innerRun]
  unfold pairOverlap at h
  simp [hj, List.getElem?_eq_getElem hi, List.getElem?_eq_getElem hj, h]

theorem checkTimeOverlap.innerRun_of_not_overlap (dateParse : String → Option ℤ)
    (entries : List Entry) (i j : ℕ) (reads : List ℕ) (hi : i < entries.length)
    (hj : j < entries.length) (h : pairOverlap dateParse entries[i] entries[j] = false) :
    checkTimeOverlap.innerRun dateParse entries i j reads
      = checkTimeOverlap.innerRun dateParse entries i (j + 1) (j :: i :: reads) := by
  rw [checkTimeOverlap.innerRun]
  unfold pairOverlap at h
  simp [hj, List.getElem?_eq_getElem hi, List.getElem?_eq_getElem hj, h]

theorem checkTimeOverlap.innerRun_of_ge (dateParse : String → Option ℤ)
    (entries : List Entry) (i j : ℕ) (reads : List ℕ) (hj : ¬ j < entries.length) :
    checkTimeOverlap.innerRun dateParse entries i j reads = (reads, Except.ok none) := by
  rw [checkTimeOverlap.innerRun]
  simp [hj]

/-- The inner loop with unchecked reads throws nothing when `i` is in bounds: its outcome
is that of `checkTimeOverlap.inner`, and every index it reads is in bounds. -/
theorem checkTimeOverlap.innerRun_spec (dateParse : String → Option ℤ)
    (entries : List Entry) (i : ℕ) (hi : i < entries.length) (j : ℕ) (reads : List ℕ) :
    (checkTimeOverlap.innerRun dateParse entries i j reads).2
        = Except.ok (checkTimeOverlap.inner dateParse entries i hi j) ∧
      ∀ k ∈ (checkTimeOverlap.innerRun dateParse entries i j reads).1,
        k ∈ reads ∨ k < entries.length := by
  induction j using checkTimeOverlap.inner.induct dateParse entries i hi generalizing reads with
  | case1 x hx entry1 entry2 hov =>
    rw [checkTimeOverlap.innerRun_of_overlap dateParse entries i x reads hi hx hov,
      checkTimeOverlap.inner_of_overlap dateParse entries i hi x hx hov]
    refine ⟨rfl, ?_⟩
    intro k hk
    simp only [List.mem_cons] at hk
    rcases hk with h | h | h
    · right; omega
    · right; omega
    · left; exact h
  | case2 x hx entry1 entry2 hov ih =>
    have hno : pairOverlap dateParse entries[i] entries[x] = false := by
      simpa [pairOverlap, entry1, entry2] using hov
    rw [checkTimeOverlap.innerRun_of_not_overlap dateParse entries i x reads hi hx hno,
      checkTimeOverlap.inner_of_not_overlap dateParse entries i hi x hx hno]
    refine ⟨(ih (x :: i :: reads)).1, ?_⟩
    intro k hk
    rcases (ih (x :: i :: reads)).2 k hk with h | h
    · simp only [List.mem_cons] at h
      rcases h with h | h | h
      · right; omega
      · right; omega
      · left; exact h
    · right; exact h
  | case3 x hx =>
    rw [checkTimeOverlap.innerRun_of_ge dateParse entries i x reads hx,
      checkTimeOverlap.inner_of_ge dateParse entries i hi x hx]
    exact ⟨rfl, fun k hk => Or.inl hk⟩

/-- The outer loop with unchecked reads throws nothing: its outcome is that of
`checkTimeOverlap.outer`, and every index it reads is in bounds. -/
theorem checkTimeOverlap.outerRun_spec (dateParse : String → Option ℤ)
    (entries : List Entry) (i : ℕ) (reads : List ℕ) :
    (checkTimeOverlap.outerRun dateParse entries i reads).2
        = Except.ok (checkTimeOverlap.outer dateParse entries i) ∧
      ∀ k ∈ (checkTimeOverlap.outerRun dateParse entries i reads).1,
        k ∈ reads ∨ k < entries.length := by
  induction i using checkTimeOverlap.outer.induct dateParse entries generalizing reads with
  | case1 x hx result hres =>
    obtain ⟨h1, h2⟩ := checkTimeOverlap.innerRun_spec dateParse entries x hx (x + 1) reads
    rw [hres] at h1
    rw [checkTimeOverlap.outer_of_some dateParse entries x hx result hres]
    rw [checkTimeOverlap.outerRun]
    generalize checkTimeOverlap.innerRun dateParse entries x (x + 1) reads = run at h1 h2
    obtain ⟨reads', outcome⟩ := run
    simp only at h1 h2
    subst h1
    simp only [hx, if_true]
    exact ⟨trivial, h2⟩
  | case2 x hx hnone ih =>
    obtain ⟨h1, h2⟩ := checkTimeOverlap.innerRun_spec dateParse entries x hx (x + 1) reads
    rw [hnone] at h1
    rw [checkTimeOverlap.outer_of_none dateParse entries x hx hnone]
    rw [checkTimeOverlap.outerRun]
    generalize checkTimeOverlap.innerRun dateParse entries x (x + 1) reads = run at h1 h2
    obtain ⟨reads', outcome⟩ := run
    simp only at h1 h2
    subst h1
    simp only [hx, if_true]
    refine ⟨(ih reads').1, ?_⟩
    intro k hk
    rcases (ih reads').2 k hk with h | h
    · exact h2 k h
    · exact Or.inr h
  | case3 x hx =>
    rw [checkTimeOverlap.outer_of_ge dateParse entries x hx, checkTimeOverlap.outerRun]
    simp only [hx, if_false]
    exact ⟨trivial, fun k hk => Or.inl hk⟩

/-- C11. On well-formed or empty inputs the three functions are total. For start and end
each absent, empty or parseable and a finite (or omitted) break, `calculateTotalHours`
returns a finite number `>= 0`; for every Number of hours `formatHours` returns a text;
for every list of entries (the empty one included) `checkTimeOverlap`, run with unchecked
array reads, terminates without an exception with the result of `checkTimeOverlap`, and
every index it reads is within the bounds of the list. -/
theorem timesheetUtils_total (dateParse : String → Option ℤ)
    (startTime endTime : Option String) (breakMinutes : Option ℚ) (hours : JSNum)
    (entries : List Entry)
    (hstart : ParseableOrAbsent dateParse startTime)
    (hend : ParseableOrAbsent dateParse endTime) :
    (∃ q : ℚ, 0 ≤ q ∧
        calculateTotalHours dateParse startTime endTime (breakMinutes.map JSNum.fin)
          = JSNum.fin q) ∧
      (∃ h m : JSIntegral,
        formatHours hours = numberToString h ++ "h " ++ numberToString m ++ "m") ∧
      (checkTimeOverlap.run dateParse entries).2
        = Except.ok (checkTimeOverlap dateParse entries) ∧
      ∀ k ∈ (checkTimeOverlap.run dateParse entries).1, k < entries.length := by
  refine ⟨calculateTotalHours_finite dateParse startTime endTime breakMinutes hstart hend,
    ⟨_, _, rfl⟩, ?_, ?_⟩
  · exact (checkTimeOverlap.outerRun_spec dateParse entries 0 []).1
  · intro k hk
    rcases (checkTimeOverlap.outerRun_spec dateParse entries 0 []).2 k hk with h | h
    · cases h
    · exact h

/-- An instance of C11: a present start with an absent end, `NaN` hours, and the empty
list and a list of three entries, whose run reads indices below 3 only. -/
theorem timesheetUtils_total_witness :
    ParseableOrAbsent refDateParse (some "09:00") ∧
    ParseableOrAbsent refDateParse none ∧
    (checkTimeOverlap.run refDateParse []).2
      = Except.ok (checkTimeOverlap refDateParse []) ∧
    ∀ k ∈ (checkTimeOverlap.run refDateParse
        [⟨"08:00", "09:00"⟩, ⟨"09:00", "12:00"⟩, ⟨"11:00", "13:00"⟩]).1, k < 3 :=
  ⟨by decide, by decide,
   (timesheetUtils_total refDateParse (some "09:00") none (some 30) JSNum.nan []
      (by decide) (by decide)).2.2.1,
   (timesheetUtils_total refDateParse (some "09:00") none (some 30) JSNum.nan
      [⟨"08:00", "09:00"⟩, ⟨"09:00", "12:00"⟩, ⟨"11:00", "13:00"⟩]
      (by decide) (by decide)).2.2.2⟩

/-! ## Unparseable times -/

theorem calculateTotalHours_of_invalid (dateParse : String → Option ℤ)
    (startTime endTime : String) (breakMinutes : Option JSNum)
    (hs0 : startTime ≠ "") (he0 : endTime ≠ "")
    (h : timeValue dateParse startTime = none ∨ timeValue dateParse endTime = none) :
    calculateTotalHours dateParse (some startTime) (some endTime) breakMinutes
      = JSNum.nan := by
  unfold timeValue at h
  rcases h with h | h
  · cases he : newDate dateParse ("2000-01-01 " ++ endTime) <;>
      simp [calculateTotalHours, truthy, templateText, hs0, he0, h, he, dateLe, dateSub,
        JSNum.divLit, JSNum.sub, JSNum.mathMax]
  · cases hs : newDate dateParse ("2000-01-01 " ++ startTime) <;>
      simp [calculateTotalHours, truthy, templateText, hs0, he0, h, hs, dateLe, dateSub,
        JSNum.divLit, JSNum.sub, JSNum.mathMax]

theorem Binary64.totalHours_of_nan_break (dateParse : String → Option ℤ)
    (startTime endTime : String) (s e : ℤ)
    (hs0 : startTime ≠ "") (he0 : endTime ≠ "")
    (hs : timeValue dateParse startTime = some s) (he : timeValue dateParse endTime = some e)
    (hlt : s < e) :
    Binary64.calculateTotalHours dateParse (some startTime) (some endTime) (some JSNum.nan)
      = JSNum.nan := by
  rw [Binary64.totalHours_of_lt dateParse startTime endTime _ s e hs0 he0 hs he hlt]
  cases Binary64.divLit (Binary64.round ((e - s : ℤ) : ℚ)) (1000 * 60 * 60) <;>
    simp [Binary64.divLit, Binary64.sub, JSNum.mathMax]

/-- C12, as stated, fails in three ways. A blank start is not empty and is not a time of
day, but a parser that reads the date alone as midnight makes `(" ", "17:00", 0)` the
number 17. With the unparseable start `abc` and an empty or absent end the result is the
number `0`. And the outcome for an unparseable time, `NaN`, is not an outcome of its own:
nothing is thrown, and the parseable times 09:00 and 17:00 with the break `NaN` give `NaN`
as well. -/
theorem calculateTotalHours_unparseable_counterexample :
    (" " ≠ "" ∧ ¬ IsTimeOfDay " " ∧
      Binary64.calculateTotalHours refDateParse (some " ") (some "17:00") (some (JSNum.fin 0))
        = JSNum.fin 17 ∧
      calculateTotalHours refDateParse (some " ") (some "17:00") (some (JSNum.fin 0))
        = JSNum.fin 17) ∧
    ("abc" ≠ "" ∧ ¬ IsTimeOfDay "abc" ∧ timeValue refDateParse "abc" = none ∧
      Binary64.calculateTotalHours refDateParse (some "abc") (some "") (some (JSNum.fin 0))
        = JSNum.fin 0 ∧
      Binary64.calculateTotalHours refDateParse (some "abc") none (some (JSNum.fin 0))
        = JSNum.fin 0) ∧
    (Binary64.calculateTotalHours refDateParse (some "abc") (some "17:00")
        (some (JSNum.fin 0)) = JSNum.nan ∧
      IsTimeOfDay "09:00" ∧ IsTimeOfDay "17:00" ∧
      Binary64.calculateTotalHours refDateParse (some "09:00") (some "17:00")
        (some JSNum.nan) = JSNum.nan) := by
  have h17 : Binary64.nearest 17 = 17 :=
    Binary64.nearest_eq_self_of 17 4 4785074604081152 (by norm_num)
      (by norm_num [abs_of_pos]) (by norm_num [abs_of_pos]) (by norm_num)
  have hD : ((946746000000 - 946684800000 : ℤ) : ℚ) / 3600000 = 17 := by norm_num
  refine ⟨⟨by decide, by decide, ?_, ?_⟩, ⟨by decide, by decide, by decide, ?_, ?_⟩,
    ⟨?_, by decide, by decide, ?_⟩⟩
  · rw [Binary64.totalHours_eq refDateParse " " "17:00" (some (JSNum.fin 0))
      946684800000 946746000000 0 (by decide) (by decide) (by decide) (by decide)
      (by decide) (by norm_num) rfl (by norm_num) (by unfold Binary64.maxValue; norm_num),
      hD]
    norm_num [Binary64.nearest_zero, h17]
  · rw [calculateTotalHours_of_lt refDateParse " " "17:00" _ 946684800000 946746000000
      (by decide) (by decide) (by decide) (by decide) (by decide)]
    simp [JSNum.divLit, JSNum.sub, JSNum.mathMax]
    norm_num
  · exact Binary64.totalHours_of_falsy refDateParse (some "abc") (some "") _ (Or.inr rfl)
  · exact Binary64.totalHours_of_falsy refDateParse (some "abc") none _ (Or.inr rfl)
  · exact Binary64.totalHours_of_invalid refDateParse "abc" "17:00" _ (by decide) (by decide)
      (Or.inl (by decide))
  · exact Binary64.totalHours_of_nan_break refDateParse "09:00" "17:00" 946717200000
      946746000000 (by decide) (by decide) (by decide) (by decide) (by decide)

/-- C12, amended. For non-empty start and end texts of which at least one makes the date
the code builds, `new Date("2000-01-01 " + text)`, an Invalid Date, `calculateTotalHours`
returns `NaN` for every break value, given or left out: never a finite or infinite
duration. This holds of the code as JavaScript evaluates it and of its evaluation without
rounding. -/
theorem calculateTotalHours_unparseable (dateParse : String → Option ℤ)
    (startTime endTime : String) (breakMinutes : Option JSNum)
    (hs0 : startTime ≠ "") (he0 : endTime ≠ "")
    (h : timeValue dateParse startTime = none ∨ timeValue dateParse endTime = none) :
    Binary64.calculateTotalHours dateParse (some startTime) (some endTime) breakMinutes
        = JSNum.nan ∧
      calculateTotalHours dateParse (some startTime) (some endTime) breakMinutes
        = JSNum.nan ∧
      ∀ x : JSNum, x ≠ JSNum.nan →
        Binary64.calculateTotalHours dateParse (some startTime) (some endTime) breakMinutes
          ≠ x := by
  have hnan :=
    Binary64.totalHours_of_invalid dateParse startTime endTime breakMinutes hs0 he0 h
  refine ⟨hnan, calculateTotalHours_of_invalid dateParse startTime endTime breakMinutes
    hs0 he0 h, ?_⟩
  intro x hx hq
  rw [hnan] at hq
  exact hx hq.symm

/-- An instance of amended C12: `("abc", "17:00", 30)` and `("09:00", "25:00")` give `NaN`. -/
theorem calculateTotalHours_unparseable_witness :
    timeValue refDateParse "abc" = none ∧ timeValue refDateParse "25:00" = none ∧
    Binary64.calculateTotalHours refDateParse (some "abc") (some "17:00")
      (some (JSNum.fin 30)) = JSNum.nan ∧
    Binary64.calculateTotalHours refDateParse (some "09:00") (some "25:00") none
      = JSNum.nan :=
  ⟨by decide, by decide,
   (calculateTotalHours_unparseable refDateParse "abc" "17:00" (some (JSNum.fin 30))
      (by decide) (by decide) (Or.inl (by decide))).1,
   (calculateTotalHours_unparseable refDateParse "09:00" "25:00" none
      (by decide) (by decide) (Or.inr (by decide))).1⟩

/-! ## Overlap as a shared span, symmetry and the order of the entries -/

theorem timesOverlap_of_open_span (dateParse : String → Option ℤ)
    (start1 end1 start2 end2 : String) (s1 e1 s2 e2 : ℤ)
    (hs1 : timeValue dateParse start1 = some s1) (he1 : timeValue dateParse end1 = some e1)
    (hs2 : timeValue dateParse start2 = some s2) (he2 : timeValue dateParse end2 = some e2)
    (h : ∃ x y : ℤ, x < y ∧ s1 ≤ x ∧ y ≤ e1 ∧ s2 ≤ x ∧ y ≤ e2) :
    timesOverlap dateParse start1 end1 start2 end2 = true := by
  obtain ⟨x, y, hxy, h1, h2, h3, h4⟩ := h
  rw [timesOverlap_eq, hs1, he1, hs2, he2]
  simp only [dateLt, Bool.and_eq_true, decide_eq_true_eq]
  constructor <;> omega

/-- C13, as stated, fails: the empty interval 10:00-10:00 lies inside 09:00-11:00, and
`timesOverlap` is true of the two although they share no span `x < y`. -/
theorem timesOverlap_open_span_counterexample :
    timeValue refDateParse "10:00" = some 946720800000 ∧
    timeValue refDateParse "09:00" = some 946717200000 ∧
    timeValue refDateParse "11:00" = some 946724400000 ∧
    timesOverlap refDateParse "10:00" "10:00" "09:00" "11:00" = true ∧
    ¬ ∃ x y : ℤ, x < y ∧ 946720800000 ≤ x ∧ y ≤ 946720800000 ∧
      946717200000 ≤ x ∧ y ≤ 946724400000 := by
  refine ⟨by decide, by decide, by decide, by decide, ?_⟩
  rintro ⟨x, y, hxy, h1, h2, _, _⟩
  omega

/-- C13, amended. For two intervals of parseable times that both have their start before
their end, `timesOverlap` is true if and only if the intervals share an open sub-span
(times `x < y` with `s1 <= x`, `y <= e1`, `s2 <= x`, `y <= e2`); with no assumption on the
intervals, sharing such a span still makes `timesOverlap` true. -/
theorem timesOverlap_open_span_iff (dateParse : String → Option ℤ)
    (start1 end1 start2 end2 : String) (s1 e1 s2 e2 : ℤ)
    (hs1 : timeValue dateParse start1 = some s1) (he1 : timeValue dateParse end1 = some e1)
    (hs2 : timeValue dateParse start2 = some s2) (he2 : timeValue dateParse end2 = some e2) :
    ((∃ x y : ℤ, x < y ∧ s1 ≤ x ∧ y ≤ e1 ∧ s2 ≤ x ∧ y ≤ e2) →
        timesOverlap dateParse start1 end1 start2 end2 = true) ∧
      (s1 < e1 → s2 < e2 →
        (timesOverlap dateParse start1 end1 start2 end2 = true ↔
          ∃ x y : ℤ, x < y ∧ s1 ≤ x ∧ y ≤ e1 ∧ s2 ≤ x ∧ y ≤ e2)) := by
  refine ⟨timesOverlap_of_open_span dateParse start1 end1 start2 end2 s1 e1 s2 e2
    hs1 he1 hs2 he2, ?_⟩
  intro h1 h2
  constructor
  · intro hov
    rw [timesOverlap_eq, hs1, he1, hs2, he2] at hov
    simp only [dateLt, Bool.and_eq_true, decide_eq_true_eq] at hov
    refine ⟨max s1 s2, min e1 e2, ?_, le_max_left _ _, min_le_left _ _, le_max_right _ _,
      min_le_right _ _⟩
    rw [max_lt_iff, lt_min_iff, lt_min_iff]
    exact ⟨⟨h1, hov.1⟩, ⟨hov.2, h2⟩⟩
  · exact timesOverlap_of_open_span dateParse start1 end1 start2 end2 s1 e1 s2 e2
      hs1 he1 hs2 he2

/-- An instance of amended C13: 09:00-12:00 and 11:00-13:00 share the span 11:00-12:00. -/
theorem timesOverlap_open_span_iff_witness :
    timeValue refDateParse "09:00" = some 946717200000 ∧
    timeValue refDateParse "12:00" = some 946728000000 ∧
    timeValue refDateParse "11:00" = some 946724400000 ∧
    timeValue refDateParse "13:00" = some 946731600000 ∧
    ∃ x y : ℤ, x < y ∧ 946717200000 ≤ x ∧ y ≤ 946728000000 ∧
      946724400000 ≤ x ∧ y ≤ 946731600000 :=
  ⟨by decide, by decide, by decide, by decide,
   ((timesOverlap_open_span_iff refDateParse "09:00" "12:00" "11:00" "13:00"
      946717200000 946728000000 946724400000 946731600000
      (by decide) (by decide) (by decide) (by decide)).2 (by decide) (by decide)).mp
      (by decide)⟩

/-- C19. `timesOverlap` is symmetric in its two intervals, for all time texts (parseable
or not): `timesOverlap(s1, e1, s2, e2) = timesOverlap(s2, e2, s1, e1)`. -/
theorem timesOverlap_symm (dateParse : String → Option ℤ)
    (start1 end1 start2 end2 : String) :
    timesOverlap dateParse start1 end1 start2 end2
      = timesOverlap dateParse start2 end2 start1 end1 := by
  simp only [timesOverlap_eq]
  exact Bool.and_comm _ _

theorem checkTimeOverlap_overlap_false_iff_pairwise (dateParse : String → Option ℤ)
    (entries : List Entry) :
    (checkTimeOverlap dateParse entries).overlap = false ↔
      entries.Pairwise (fun a b => pairOverlap dateParse a b = false) := by
  rw [List.pairwise_iff_getElem]
  constructor
  · intro h i j hi hj hij
    by_contra hov
    have htrue : (checkTimeOverlap dateParse entries).overlap = true :=
      (checkTimeOverlap_reports_iff_lt dateParse entries).mpr
        ⟨i, j, hi, hj, hij, by simpa using hov⟩
    rw [h] at htrue
    cases htrue
  · intro h
    by_contra hov
    have htrue : (checkTimeOverlap dateParse entries).overlap = true := by simpa using hov
    obtain ⟨i, j, hi, hj, hij, hpair⟩ :=
      (checkTimeOverlap_reports_iff_lt dateParse entries).mp htrue
    rw [h i j hi hj hij] at hpair
    cases hpair

/-- C20. The overlap flag of `checkTimeOverlap` does not depend on the order of the entries:
on a list and on every permutation of it the value of `overlap` is the same. -/
theorem checkTimeOverlap_perm (dateParse : String → Option ℤ) (entries entries' : List Entry)
    (h : entries.Perm entries') :
    (checkTimeOverlap dateParse entries).overlap
      = (checkTimeOverlap dateParse entries').overlap := by
  have hsymm : ∀ {a b : Entry}, pairOverlap dateParse a b = false →
      pairOverlap dateParse b a = false := by
    intro a b hab
    rw [pairOverlap_comm]
    exact hab
  have hiff : (checkTimeOverlap dateParse entries).overlap = false ↔
      (checkTimeOverlap dateParse entries').overlap = false := by
    rw [checkTimeOverlap_overlap_false_iff_pairwise, checkTimeOverlap_overlap_false_iff_pairwise]
    exact List.Perm.pairwise_iff hsymm h
  cases h1 : (checkTimeOverlap dateParse entries).overlap <;>
    cases h2 : (checkTimeOverlap dateParse entries').overlap <;> simp_all

/-- An instance of C20: the entries A, B, C of the example of C8 in the orders A, B, C and
C, A, B. -/
theorem checkTimeOverlap_perm_witness :
    List.Perm
      ([⟨"08:00", "09:00"⟩, ⟨"09:00", "12:00"⟩, ⟨"11:00", "13:00"⟩] : List Entry)
      [⟨"11:00", "13:00"⟩, ⟨"08:00", "09:00"⟩, ⟨"09:00", "12:00"⟩] ∧
    (checkTimeOverlap refDateParse
        [⟨"08:00", "09:00"⟩, ⟨"09:00", "12:00"⟩, ⟨"11:00", "13:00"⟩]).overlap
      = (checkTimeOverlap refDateParse
        [⟨"11:00", "13:00"⟩, ⟨"08:00", "09:00"⟩, ⟨"09:00", "12:00"⟩]).overlap :=
  ⟨by decide, checkTimeOverlap_perm refDateParse _ _ (by decide)⟩

/-! ## Properties of `getCSRFToken` and `familyhubFetch` -/

/-- C14 at a failing input: with `document.cookie` being `csrftoken=abc=def` the function
returns `abc`, the value cut at its first `=`, not the full value `abc=def`; with the cookie
`csrftoken` written without `=` it returns `undefined`. A value without `=` is returned in
full, from the first cookie of that name, and without such a cookie the `content` of the
meta tag, or the empty string, is returned. -/
theorem getCSRFToken_truncates :
    getCSRFToken "csrftoken=abc=def" none = JSValue.str "abc" ∧
    getCSRFToken "sessionid=1; csrftoken=dG9rZW4=; theme=dark" (some (some "meta"))
      = JSValue.str "dG9rZW4" ∧
    getCSRFToken "csrftoken" (some (some "meta")) = JSValue.undefined ∧
    getCSRFToken "sessionid=1; csrftoken=tok1; csrftoken=tok2" none = JSValue.str "tok1" ∧
    getCSRFToken "sessionid=1" (some (some "meta")) = JSValue.str "meta" ∧
    getCSRFToken "" none = JSValue.str "" := by decide

theorem getProp_append {α : Type} (key : String) (a b : List (String × α)) :
    getProp key (a ++ b) = (getProp key b).or (getProp key a) := by
  induction a with
  | nil =>
    simp only [List.nil_append, getProp]
    cases getProp key b <;> rfl
  | cons p a ih =>
    obtain ⟨k, v⟩ := p
    rw [List.cons_append, getProp, ih]
    cases hb : getProp key b with
    | none => simp only [getProp, Option.none_or]
    | some w => rfl

theorem getProp_singleton {α : Type} (key k : String) (v : α) :
    getProp key [(k, v)] = if k = key then some v else none := rfl

theorem familyhubFetch.defaultHeaders_token (cookie : String)
    (metaContent : Option (Option String)) :
    getProp "X-CSRFToken" (familyhubFetch.defaultHeaders cookie metaContent)
      = some (getCSRFToken cookie metaContent) := by
  simp [familyhubFetch.defaultHeaders, getProp]

theorem familyhubFetch.defaultOptions_headers (cookie : String)
    (metaContent : Option (Option String)) :
    spreadProps (getProp "headers" (familyhubFetch.defaultOptions cookie metaContent))
      = familyhubFetch.defaultHeaders cookie metaContent := by
  simp [familyhubFetch.defaultOptions, getProp, spreadProps]

theorem familyhubFetch_eq (cookie : String) (metaContent : Option (Option String))
    (url : String) (options : Option (List (String × OptionValue))) :
    familyhubFetch cookie metaContent url options
      = (url, familyhubFetch.defaultOptions cookie metaContent ++ options.getD [] ++
          [("headers", OptionValue.object
            (familyhubFetch.defaultHeaders cookie metaContent ++
              spreadProps (getProp "headers" (options.getD []))))]) := by
  unfold familyhubFetch
  simp only [familyhubFetch.defaultOptions_headers]

/-- C15. For every options object (or none), the `headers` passed to `fetch` are the
defaults `Content-Type: application/json` and `X-CSRFToken: getCSRFToken()` overridden by
the caller's headers of the same name; the default `X-CSRFToken` is there when the caller's
headers do not name it; and every other option is the caller's when the caller gives it,
else the default. -/
theorem familyhubFetch_merge (cookie : String) (metaContent : Option (Option String))
    (url : String) (options : Option (List (String × OptionValue))) :
    (familyhubFetch cookie metaContent url options).1 = url ∧
      (∃ headers : List (String × JSValue),
        getProp "headers" (familyhubFetch cookie metaContent url options).2
          = some (OptionValue.object headers) ∧
        (∀ name : String, getProp name headers =
          (getProp name (spreadProps (getProp "headers" (options.getD [])))).or
            (getProp name (familyhubFetch.defaultHeaders cookie metaContent))) ∧
        (getProp "X-CSRFToken" (spreadProps (getProp "headers" (options.getD []))) = none →
          getProp "X-CSRFToken" headers = some (getCSRFToken cookie metaContent))) ∧
      (∀ key : String, key ≠ "headers" →
        getProp key (familyhubFetch cookie metaContent url options).2 =
          (getProp key (options.getD [])).or
            (getProp key (familyhubFetch.defaultOptions cookie metaContent))) := by
  rw [familyhubFetch_eq]
  refine ⟨rfl, ⟨familyhubFetch.defaultHeaders cookie metaContent ++
    spreadProps (getProp "headers" (options.getD [])), ?_, ?_, ?_⟩, ?_⟩
  · simp only []
    rw [getProp_append, getProp_singleton]
    simp
  · intro name
    exact getProp_append name _ _
  · intro hnone
    rw [getProp_append, hnone, Option.none_or]
    exact familyhubFetch.defaultHeaders_token cookie metaContent
  · intro key hkey
    have hne : ¬ "headers" = key := fun h => hkey h.symm
    simp only []
    rw [getProp_append, getProp_singleton, if_neg hne, Option.none_or]
    exact getProp_append key _ _

/-- An instance of C15: a caller that gives `method`, `credentials` and a header `X-Custom`
still sends the default `X-CSRFToken`, and its `credentials` replaces the default. -/
theorem familyhubFetch_merge_witness :
    (∃ headers : List (String × JSValue),
      getProp "headers" (familyhubFetch "csrftoken=tok" none "/api"
        (some [("method", OptionValue.value (JSValue.str "POST")),
          ("credentials", OptionValue.value (JSValue.str "omit")),
          ("headers", OptionValue.object [("X-Custom", JSValue.str "1")])])).2
        = some (OptionValue.object headers) ∧
      getProp "X-CSRFToken" headers = some (JSValue.str "tok")) ∧
    getProp "credentials" (familyhubFetch "csrftoken=tok" none "/api"
        (some [("method", OptionValue.value (JSValue.str "POST")),
          ("credentials", OptionValue.value (JSValue.str "omit")),
          ("headers", OptionValue.object [("X-Custom", JSValue.str "1")])])).2
      = some (OptionValue.value (JSValue.str "omit")) := by
  obtain ⟨_, ⟨headers, h1, _, h3⟩, h4⟩ := familyhubFetch_merge "csrftoken=tok" none "/api"
    (some [("method", OptionValue.value (JSValue.str "POST")),
      ("credentials", OptionValue.value (JSValue.str "omit")),
      ("headers", OptionValue.object [("X-Custom", JSValue.str "1")])])
  refine ⟨⟨headers, h1, ?_⟩, ?_⟩
  · rw [h3 (by decide)]
    decide
  · rw [h4 "credentials" (by decide)]
    decide

/-! ## Properties of the local storage functions -/

theorem getProp_without_self (items : List (String × String)) (key : String) :
    getProp key (Storage.without items key) = none := by
  induction items with
  | nil => rfl
  | cons p items ih =>
    obtain ⟨k, v⟩ := p
    by_cases hk : k = key
    · simpa [Storage.without, hk] using ih
    · have hstep : Storage.without ((k, v) :: items) key
          = (k, v) :: Storage.without items key := by
        simp [Storage.without, hk]
      rw [hstep, getProp, ih]
      simp [hk]

theorem getProp_without_of_ne (items : List (String × String)) (key k : String)
    (hne : k ≠ key) :
    getProp k (Storage.without items key) = getProp k items := by
  induction items with
  | nil => rfl
  | cons p items ih =>
    obtain ⟨k', v⟩ := p
    by_cases hk : k' = key
    · have hstep : Storage.without ((k', v) :: items) key = Storage.without items key := by
        simp [Storage.without, hk]
      have hk' : ¬ k' = k := fun h => hne (h.symm.trans hk)
      rw [hstep, ih, getProp]
      cases getProp k items <;> simp [hk']
    · have hstep : Storage.without ((k', v) :: items) key
          = (k', v) :: Storage.without items key := by
        simp [Storage.without, hk]
      rw [hstep, getProp, getProp, ih]

theorem loadUserPreferences_blocked (jsonParse : String → Except JSError JsonValue)
    (st : Storage) (h : st.blocked = true) :
    loadUserPreferences jsonParse st = Except.ok getDefaultPreferences := by
  simp [loadUserPreferences, Storage.getItem, h, Except.tryCatch]

theorem loadUserPreferences_missing (jsonParse : String → Except JSError JsonValue)
    (st : Storage) (h : st.blocked = false)
    (hitem : getProp "familyhub_preferences" st.items = none) :
    loadUserPreferences jsonParse st = Except.ok getDefaultPreferences := by
  simp [loadUserPreferences, Storage.getItem, h, hitem, truthy, Except.tryCatch]

theorem loadUserPreferences_stored (jsonParse : String → Except JSError JsonValue)
    (st : Storage) (text : String) (h : st.blocked = false)
    (hitem : getProp "familyhub_preferences" st.items = some text) :
    loadUserPreferences jsonParse st
      = if text = "" then Except.ok getDefaultPreferences
        else match jsonParse text with
          | Except.ok value => Except.ok value
          | Except.error _ => Except.ok getDefaultPreferences := by
  by_cases ht : text = ""
  · simp [loadUserPreferences, Storage.getItem, h, hitem, truthy, ht, Except.tryCatch]
  · simp only [loadUserPreferences, Storage.getItem, h, hitem, truthy, ht, Except.tryCatch]
    cases hp : jsonParse text <;> simp [ht, hp]

/-- C16. For every state of `localStorage`, `loadUserPreferences` returns without throwing.
It returns the default preferences when the storage cannot be read, when nothing (or the
empty text) is stored under `familyhub_preferences`, and when parsing the stored text
fails; otherwise it returns the parsed stored value. -/
theorem loadUserPreferences_total (jsonParse : String → Except JSError JsonValue)
    (st : Storage) :
    ∃ prefs : JsonValue, loadUserPreferences jsonParse st = Except.ok prefs ∧
      (st.blocked = true → prefs = getDefaultPreferences) ∧
      (st.blocked = false → getProp "familyhub_preferences" st.items = none →
        prefs = getDefaultPreferences) ∧
      (st.blocked = false → getProp "familyhub_preferences" st.items = some "" →
        prefs = getDefaultPreferences) ∧
      (∀ (text : String) (e : JSError), st.blocked = false →
        getProp "familyhub_preferences" st.items = some text →
        jsonParse text = Except.error e → prefs = getDefaultPreferences) ∧
      (∀ (text : String) (value : JsonValue), st.blocked = false →
        getProp "familyhub_preferences" st.items = some text → text ≠ "" →
        jsonParse text = Except.ok value → prefs = value) ∧
      getDefaultPreferences = JsonValue.obj
        [("theme", JsonValue.str "default"), ("sidebarCollapsed", JsonValue.bool false),
         ("autoSave", JsonValue.bool true), ("notifications", JsonValue.bool true)] := by
  cases hb : st.blocked with
  | true =>
    refine ⟨getDefaultPreferences, loadUserPreferences_blocked jsonParse st hb,
      fun _ => rfl, ?_, ?_, ?_, ?_, rfl⟩ <;> intros <;> contradiction
  | false =>
    cases hitem : getProp "familyhub_preferences" st.items with
    | none =>
      refine ⟨getDefaultPreferences, loadUserPreferences_missing jsonParse st hb hitem,
        fun _ => rfl, fun _ _ => rfl, fun _ _ => rfl, ?_, ?_, rfl⟩ <;> intros <;> contradiction
    | some text =>
      have hload := loadUserPreferences_stored jsonParse st text hb hitem
      by_cases ht : text = ""
      · rw [if_pos ht] at hload
        refine ⟨getDefaultPreferences, hload, fun _ => rfl, fun _ _ => rfl, fun _ _ => rfl,
          ?_, ?_, rfl⟩
        · intros; rfl
        · intro text' value _ htext hne _
          cases htext
          exact absurd ht hne
      · rw [if_neg ht] at hload
        cases hparse : jsonParse text with
        | error e =>
          rw [hparse] at hload
          refine ⟨getDefaultPreferences, hload, fun _ => rfl, fun _ _ => rfl,
            fun _ _ => rfl, ?_, ?_, rfl⟩
          · intros; rfl
          · intro text' value _ htext _ hok
            cases htext
            rw [hparse] at hok
            cases hok
        | ok value =>
          rw [hparse] at hload
          refine ⟨value, hload, ?_, ?_, ?_, ?_, ?_, rfl⟩
          · intro h; cases h
          · intro _ h; cases h
          · intro _ h
            cases h
            exact absurd rfl ht
          · intro text' e _ htext herr
            cases htext
            rw [hparse] at herr
            cases herr
          · intro text' value' _ htext _ hok
            cases htext
            rw [hparse] at hok
            cases hok
            rfl

/-- Instances of C16: a stored text that does not parse gives the defaults, the stored
text `true` gives its parsed value, and a blocked storage gives the defaults. -/
theorem loadUserPreferences_total_witness :
    loadUserPreferences literalJsonParse
        ⟨false, false, [("familyhub_preferences", "theme=dark")]⟩
      = Except.ok getDefaultPreferences ∧
    loadUserPreferences literalJsonParse ⟨false, false, [("familyhub_preferences", "true")]⟩
      = Except.ok (JsonValue.bool true) ∧
    loadUserPreferences literalJsonParse ⟨true, false, [("familyhub_preferences", "true")]⟩
      = Except.ok getDefaultPreferences := by
  refine ⟨?_, ?_, ?_⟩
  · obtain ⟨prefs, hload, _, _, _, herr, _, _⟩ := loadUserPreferences_total literalJsonParse
      ⟨false, false, [("familyhub_preferences", "theme=dark")]⟩
    rw [hload, herr "theme=dark" JSError.syntaxError rfl (by decide) rfl]
  · obtain ⟨prefs, hload, _, _, _, _, hok, _⟩ := loadUserPreferences_total literalJsonParse
      ⟨false, false, [("familyhub_preferences", "true")]⟩
    rw [hload, hok "true" (JsonValue.bool true) rfl (by decide) (by decide) rfl]
  · obtain ⟨prefs, hload, hblocked, _⟩ := loadUserPreferences_total literalJsonParse
      ⟨true, false, [("familyhub_preferences", "true")]⟩
    rw [hload, hblocked rfl]

theorem storageKey_form (formId : String) :
    "timesheet_" ++ ("form_" ++ formId) = "timesheet_form_" ++ formId := by
  rw [← String.append_assoc]
  rfl

theorem formInputData_foldl_no_token (formData acc : List (String × String))
    (hacc : getProp "csrfmiddlewaretoken" acc = none) :
    getProp "csrfmiddlewaretoken"
      (formData.foldl
        (fun data entry =>
          if entry.1 ≠ "csrfmiddlewaretoken" then data ++ [(entry.1, entry.2)] else data)
        acc) = none := by
  induction formData generalizing acc with
  | nil => exact hacc
  | cons entry formData ih =>
    rw [List.foldl_cons]
    apply ih
    by_cases hk : entry.1 = "csrfmiddlewaretoken"
    · simpa [hk] using hacc
    · rw [if_pos hk, getProp_append, getProp_singleton, if_neg hk, Option.none_or]
      exact hacc

theorem formInputData_no_token (formData : List (String × String)) :
    getProp "csrfmiddlewaretoken" (formInputData formData) = none :=
  formInputData_foldl_no_token formData [] rfl

theorem saveToLocalStorage_ok {α : Type} (jsonStringify : α → Except JSError String)
    (key : String) (value : α) (st : Storage) (text : String)
    (hblocked : st.blocked = false) (hfull : st.full = false)
    (htext : jsonStringify value = Except.ok text) :
    saveToLocalStorage jsonStringify key value st
      = Except.ok { st with
          items := Storage.without st.items ("timesheet_" ++ key) ++
            [("timesheet_" ++ key, text)] } := by
  simp [saveToLocalStorage, htext, Storage.setItem, hblocked, hfull, Except.tryCatch]

theorem formSubmitCallback_ok (formId : String) (st : Storage) (hblocked : st.blocked = false) :
    formSubmitCallback false formId st
      = Except.ok { st with items := Storage.without st.items ("timesheet_form_" ++ formId) } := by
  simp [formSubmitCallback, Storage.removeItem, hblocked]

theorem getFromLocalStorage_of_none (jsonParse : String → Except JSError JsonValue)
    (key : String) (st : Storage) (h : getProp ("timesheet_" ++ key) st.items = none) :
    getFromLocalStorage jsonParse key st = Except.ok JsonValue.null := by
  cases hb : st.blocked <;>
    simp [getFromLocalStorage, Storage.getItem, hb, h, truthy, Except.tryCatch]

/-- C17. In form persistence, for a form whose `data-persist` id is `formId` and a storage
that is usable: the data the `input` handler saves never has the key
`csrfmiddlewaretoken`; the handler writes the item `timesheet_form_` + `formId` and no
other; the callback of a submit without `.error-highlight` removes that item and no other,
so the storage is back to what it held under the other keys; and after the clear
`getFromLocalStorage('form_' + formId)` returns `null`. -/
theorem formPersistence_clear (jsonStringify : List (String × String) → Except JSError String)
    (jsonParse : String → Except JSError JsonValue) (formId : String)
    (formData : List (String × String)) (st : Storage) (text : String)
    (hblocked : st.blocked = false) (hfull : st.full = false)
    (htext : jsonStringify (formInputData formData) = Except.ok text) :
    getProp "csrfmiddlewaretoken" (formInputData formData) = none ∧
      ∃ st1 st2 : Storage,
        formInputHandler jsonStringify formId formData st = Except.ok st1 ∧
        getProp ("timesheet_form_" ++ formId) st1.items = some text ∧
        (∀ k : String, k ≠ "timesheet_form_" ++ formId →
          getProp k st1.items = getProp k st.items) ∧
        formSubmitCallback false formId st1 = Except.ok st2 ∧
        getProp ("timesheet_form_" ++ formId) st2.items = none ∧
        (∀ k : String, k ≠ "timesheet_form_" ++ formId →
          getProp k st2.items = getProp k st.items) ∧
        getFromLocalStorage jsonParse ("form_" ++ formId) st2 = Except.ok JsonValue.null := by
  refine ⟨formInputData_no_token formData, ?_⟩
  have hsave := saveToLocalStorage_ok jsonStringify ("form_" ++ formId)
    (formInputData formData) st text hblocked hfull htext
  rw [storageKey_form] at hsave
  have hwritten : ∀ k : String, k ≠ "timesheet_form_" ++ formId →
      getProp k (Storage.without st.items ("timesheet_form_" ++ formId) ++
        [("timesheet_form_" ++ formId, text)]) = getProp k st.items := by
    intro k hk
    have hk' : ¬ "timesheet_form_" ++ formId = k := fun h => hk h.symm
    rw [getProp_append, getProp_singleton, if_neg hk', Option.none_or,
      getProp_without_of_ne _ _ _ hk]
  refine ⟨_, _, hsave, ?_, hwritten, formSubmitCallback_ok formId _ hblocked, ?_, ?_, ?_⟩
  · simp only []
    rw [getProp_append, getProp_singleton, if_pos rfl]
    rfl
  · exact getProp_without_self _ _
  · intro k hk
    simp only []
    rw [getProp_without_of_ne _ _ _ hk]
    exact hwritten k hk
  · apply getFromLocalStorage_of_none
    rw [storageKey_form]
    exact getProp_without_self _ _

/-- An instance of C17: the form `entry` with the fields `csrfmiddlewaretoken` and `job`, on
a storage that holds the preferences: after the input and the clear the saved form is gone
and the preferences are still there. -/
theorem formPersistence_clear_witness :
    getProp "csrfmiddlewaretoken"
      (formInputData [("csrfmiddlewaretoken", "secret"), ("job", "7")]) = none ∧
    ∃ st1 st2 : Storage,
      formInputHandler (fun _ => Except.ok "saved") "entry"
        [("csrfmiddlewaretoken", "secret"), ("job", "7")]
        ⟨false, false, [("familyhub_preferences", "true")]⟩ = Except.ok st1 ∧
      getProp "timesheet_form_entry" st1.items = some "saved" ∧
      formSubmitCallback false "entry" st1 = Except.ok st2 ∧
      getProp "timesheet_form_entry" st2.items = none ∧
      getProp "familyhub_preferences" st2.items = some "true" ∧
      getFromLocalStorage literalJsonParse "form_entry" st2 = Except.ok JsonValue.null := by
  obtain ⟨h0, st1, st2, h1, h2, _, h4, h5, h6, h7⟩ :=
    formPersistence_clear (fun _ => Except.ok "saved") literalJsonParse "entry"
      [("csrfmiddlewaretoken", "secret"), ("job", "7")]
      ⟨false, false, [("familyhub_preferences", "true")]⟩ "saved" rfl rfl rfl
  refine ⟨h0, st1, st2, h1, h2, h4, h5, ?_, h7⟩
  rw [h6 "familyhub_preferences" (by decide)]
  decide

/-! ## Properties of `addActivity` -/

theorem addActivity_of_cons (item : ActivityItem) (items : List ActivityItem)
    (activity : Activity) :
    addActivity (item :: items) activity
      = if (item :: items).length + 1 > 5 then
          Except.ok (ActivityItem.mk activity.job activity.timeRange (formatTime activity.hours)
            :: (item :: items).dropLast)
        else
          Except.ok (ActivityItem.mk activity.job activity.timeRange (formatTime activity.hours)
            :: item :: items) := by
  unfold addActivity
  simp only [List.length_cons]
  split_ifs <;> simp [List.dropLast]

/-- C18 at a failing input: on an empty activity list `addActivity` throws a `TypeError`
(`document.querySelector('.card-body .activity-item')` is `null` and its `parentNode` is
read), so the new activity is not added. -/
theorem addActivity_empty (activity : Activity) :
    addActivity [] activity = Except.error JSError.typeError := rfl

/-- On a non-empty activity list of at most 5 items `addActivity` does what C18 says: the
new activity comes first, at most 5 items remain, and an item is dropped only from a list of
5, and then it is the last one. -/
theorem addActivity_of_ne_nil (items : List ActivityItem) (activity : Activity)
    (hne : items ≠ []) (hlen : items.length ≤ 5) :
    ∃ newItem : ActivityItem, newItem.job = activity.job ∧
      newItem.timeRange = activity.timeRange ∧ newItem.badge = formatTime activity.hours ∧
      ((items.length < 5 ∧ addActivity items activity = Except.ok (newItem :: items)) ∨
        (items.length = 5 ∧
          addActivity items activity = Except.ok (newItem :: items.dropLast))) := by
  cases items with
  | nil => exact absurd rfl hne
  | cons item items =>
    refine ⟨ActivityItem.mk activity.job activity.timeRange (formatTime activity.hours),
      rfl, rfl, rfl, ?_⟩
    rw [addActivity_of_cons]
    simp only [List.length_cons] at hlen ⊢
    by_cases h5 : items.length + 1 + 1 > 5
    · right
      rw [if_pos h5]
      exact ⟨by omega, rfl⟩
    · left
      rw [if_neg h5]
      exact ⟨by omega, rfl⟩

/-! ## The whole minutes `formatHours` and `formatTime` print -/

/-- C21, as stated, fails, whether `round(60 * hours)` is read in exact arithmetic or as
`Math.round(60 * hours)`. For the double `0.008333333333333333` the two functions print
`"0h 1m"`, one minute, while `60 * hours` is less than one half and rounds to 0. For the
double `8.508333333333333` they print `"8h 30m"`, 510 minutes, while the product
`60 * hours` of JavaScript is `510.5` and `Math.round` of it is 511. For the hours
`Infinity` the minute part is `NaN`. -/
theorem formatHours_minutes_sum_counterexample :
    formatHours (JSNum.fin (4803839602528529 / 576460752303423488)) = "0h 1m" ∧
    formatTime (JSNum.fin (4803839602528529 / 576460752303423488)) = "0h 1m" ∧
    ⌊60 * (4803839602528529 / 576460752303423488 : ℚ) + 1 / 2⌋ = 0 ∧
    (60 * 0 + 1 : ℤ) ≠ ⌊60 * (4803839602528529 / 576460752303423488 : ℚ) + 1 / 2⌋ ∧
    formatHours (JSNum.fin (1197441463423249 / 140737488355328)) = "8h 30m" ∧
    formatTime (JSNum.fin (1197441463423249 / 140737488355328)) = "8h 30m" ∧
    mathRound (Binary64.mulLit (JSNum.fin (1197441463423249 / 140737488355328)) 60)
      = JSIntegral.int 511 ∧
    mathRound (Binary64.mulLit (JSNum.fin (1197441463423249 / 140737488355328)) 60)
      ≠ JSIntegral.int (60 * 8 + 30) ∧
    formatHours JSNum.posInf = "Infinityh NaNm" ∧
    formatTime JSNum.posInf = "Infinityh NaNm" := by
  have hfl : ⌊60 * (4803839602528529 / 576460752303423488 : ℚ) + 1 / 2⌋ = 0 := by
    rw [Int.floor_eq_iff]
    norm_num
  have hround : mathRound (Binary64.mulLit (JSNum.fin (1197441463423249 / 140737488355328)) 60)
      = JSIntegral.int 511 := by
    rw [Binary64.mulLit_below_half_past]
    simp only [mathRound]
    congr 1
    rw [Int.floor_eq_iff]
    norm_num
  refine ⟨formatHours_below_half_minute, ?_, hfl, ?_, formatHours_below_half_past, ?_,
    hround, ?_, formatHours_posInf, formatHours_posInf⟩
  · rw [formatTime_eq_formatHours]
    exact formatHours_below_half_minute
  · rw [hfl]
    norm_num
  · rw [formatTime_eq_formatHours]
    exact formatHours_below_half_past
  · rw [hround]
    intro h
    cases h

/-- C21, amended. For every finite non-negative number of hours, the two numbers
`formatHours` and `formatTime` print, `H = floor(hours)` and `M`, satisfy `0 <= M <= 60`, and the
minutes `60 * H + M` they encode are within `1/2 + 2^-47` of `60 * hours`; they are
`60 * hours` rounded to the nearest whole minute whenever `60 * hours` is at least `2^-47`
away from the halves `k + 1/2`. -/
theorem formatHours_minutes_sum (hours : ℚ) (h0 : 0 ≤ hours) :
    ∃ H M : ℕ,
      formatHours (JSNum.fin hours)
        = numberToString (JSIntegral.int (H : ℤ)) ++ "h " ++
            numberToString (JSIntegral.int (M : ℤ)) ++ "m" ∧
      formatTime (JSNum.fin hours)
        = numberToString (JSIntegral.int (H : ℤ)) ++ "h " ++
            numberToString (JSIntegral.int (M : ℤ)) ++ "m" ∧
      ⌊hours⌋ = (H : ℤ) ∧ M ≤ 60 ∧
      |(60 * (H : ℚ) + (M : ℚ)) - 60 * hours| ≤ 1 / 2 + (2 : ℚ) ^ (-47 : ℤ) ∧
      ∀ k : ℤ, (k : ℚ) - 1 / 2 + (2 : ℚ) ^ (-47 : ℤ) ≤ 60 * hours →
        60 * hours < (k : ℚ) + 1 / 2 - (2 : ℚ) ^ (-47 : ℤ) → 60 * (H : ℤ) + (M : ℤ) = k := by
  obtain ⟨H, M, p, hH, hM, -, hp0, hp60, hp, hres⟩ := formatHours_parts hours h0
  have hMq : ((⌊p + 1 / 2⌋ : ℤ) : ℚ) = (M : ℚ) := by rw [hM]; simp
  have h3 := Int.floor_le (p + 1 / 2)
  have h4 := Int.lt_floor_add_one (p + 1 / 2)
  rw [hMq] at h3 h4
  rw [abs_le] at hp
  refine ⟨H, M, hres, ?_, hH, ?_, ?_, ?_⟩
  · rw [formatTime_eq_formatHours]
    exact hres
  · have hlt : (M : ℚ) < 61 := by linarith
    have hlt' : M < 61 := by exact_mod_cast hlt
    omega
  · rw [abs_le]
    generalize (2 : ℚ) ^ (-47 : ℤ) = u at hp
    constructor <;> linarith [hp.1, hp.2]
  · intro k hk1 hk2
    have hM' : (M : ℤ) = k - 60 * (H : ℤ) := by
      rw [← hM, Int.floor_eq_iff]
      push_cast
      generalize (2 : ℚ) ^ (-47 : ℤ) = u at hp hk1 hk2
      constructor <;> linarith [hp.1, hp.2]
    omega

/-- An instance of amended C21: 8.5 hours is printed as `"8h 30m"` by both functions, and
`60 * 8 + 30 = 510 = 60 * 8.5`. -/
theorem formatHours_minutes_sum_witness :
    (0 : ℚ) ≤ 8.5 ∧ formatHours (JSNum.fin 8.5) = "8h 30m" ∧
    formatTime (JSNum.fin 8.5) = "8h 30m" := by
  obtain ⟨H, M, hres, hres', hH, -, -, hk⟩ := formatHours_minutes_sum 8.5 (by norm_num)
  have hfl : ⌊(8.5 : ℚ)⌋ = 8 := by
    rw [Int.floor_eq_iff]
    norm_num
  have hH' : H = 8 := by
    rw [hfl] at hH
    exact_mod_cast hH.symm
  subst hH'
  have hM : 60 * ((8 : ℕ) : ℤ) + (M : ℤ) = 510 := hk 510 (by norm_num) (by norm_num)
  have hM' : M = 30 := by
    push_cast at hM
    omega
  subst hM'
  refine ⟨by norm_num, ?_, ?_⟩
  · rw [hres]
    decide
  · rw [hres']
    decide

end FamilyHub
